import Mathlib

/-!
# Verification of the SRA_LLM streaming acquisition/extraction pipeline

This file is a shallow embedding, in Lean 4, of the core algorithms of the
SRA_LLM repository (`SRA_fetch_1LLM_improved.py` and `SRA_fetch.py`), together
with theorems settling the specification claims about them.

Modelling conventions:
* Python strings are Lean `String`s.  All string primitives the Python code
  uses (`strip`, `startswith`, `in`, slicing, splitting) are re-implemented
  below by structural recursion over the character list `String.data`, so that
  every definition evaluates inside the kernel (the corresponding core-library
  `String` functions are defined by well-founded recursion on byte positions
  and do not reduce definitionally).
* CSV rows are `List String` of their fields.  The repository writes rows with
  `csv.writer` (default dialect) and reads them with `csv.reader`; for fields
  containing no comma, quote or newline — which is the case for every field the
  algorithms inspect (accessions and library strategies) — this is exactly
  "join with a comma" / "split at commas", which is how `parseCsvLine` /
  `renderCsvLine` model it.
* File sizes (`os.path.getsize`) are modelled by `fileSizeBytes`, counting each
  stored line as its rendered characters plus a two-byte `csv.writer`
  line terminator (all inputs considered are ASCII, so chars = bytes).
* External effects (the NCBI `efetch` processes and the Ollama LLM backend)
  are modelled as oracle functions passed in as arguments; the repository code
  that consumes their results is translated faithfully.
-/

set_option maxRecDepth 8192

namespace SRALLM

/-! ## Python string primitives, kernel-computable -/

/-- The characters removed by Python's no-argument `str.strip()`. -/
def isPySpace (c : Char) : Bool :=
  c = ' ' || c = '\t' || c = '\n' || c = '\r' || c = '\x0b' || c = '\x0c'

/-- Left-strip whitespace from a character list. -/
def stripLeftChars (l : List Char) : List Char := l.dropWhile isPySpace

/-- Python `str.strip()` on the character list. -/
def stripChars (l : List Char) : List Char :=
  ((stripLeftChars l).reverse.dropWhile isPySpace).reverse

/-- Python `str.strip()`. -/
def pyStrip (s : String) : String := ⟨stripChars s.data⟩

/-- Python `a.startswith(b)`. -/
def pyStartsWith (s pre : String) : Bool := pre.data.isPrefixOf s.data

/-- Python `a.endswith(b)`. -/
def pyEndsWith (s suf : String) : Bool := suf.data.reverse.isPrefixOf s.data.reverse

/-- Python `pat in s` (substring containment). -/
def strContains (s pat : String) : Bool :=
  go s.data
where
  go : List Char → Bool
  | [] => pat.data.isPrefixOf []
  | c :: rest => pat.data.isPrefixOf (c :: rest) || go rest

/-- Python slicing `s[:n]` (by code points). -/
def pyTake (s : String) (n : Nat) : String := ⟨s.data.take n⟩

/-- Split a character list at a separator character (no separator merging,
like Python `str.split(sep)` with an explicit separator). -/
def splitChar (sep : Char) (l : List Char) : List (List Char) :=
  l.foldr (fun c acc =>
    match acc with
    | [] => if c = sep then [[], []] else [[c]]
    | cur :: done => if c = sep then [] :: (cur :: done) else (c :: cur) :: done)
    [[]]

/-- Join character lists with a separator character. -/
def joinChar (sep : Char) : List (List Char) → List Char
  | [] => []
  | [l] => l
  | l :: rest => l ++ sep :: joinChar sep rest

/-- Python `s.split("\n")`-style line splitting of raw file content. -/
def splitLines (s : String) : List String := (splitChar '\n' s.data).map String.mk

/-! ## CSV model -/

/-- One parsed CSV row: the list of its fields. -/
abbrev Row := List String

/-- `csv.reader` on a single comma-free-quoted line: split at commas. -/
def parseCsvLine (s : String) : Row := (splitChar ',' s.data).map String.mk

/-- `csv.writer.writerow` for fields without comma/quote/newline:
join with commas. -/
def renderCsvLine (r : Row) : String := ⟨joinChar ',' (r.map String.data)⟩

/-- Byte size contributed by one row written by `csv.writer`
(fields joined by commas, plus the default two-byte line terminator). -/
def rowBytes (r : Row) : Nat := (renderCsvLine r).data.length + 2

/-- Modelled `os.path.getsize` of a CSV file holding the given rows. -/
def fileSizeBytes (rows : List Row) : Nat := (rows.map rowBytes).sum

/-! ## Shared pipeline constants -/

/-- `srx_id.startswith(('SRX', 'ERX', 'DRX'))` — the archive-accession test
used throughout `SRA_fetch_1LLM_improved.py`. -/
def isAccessionId (s : String) : Bool :=
  pyStartsWith s "SRX" || pyStartsWith s "ERX" || pyStartsWith s "DRX"

/-- `EXCLUDED_LIBRARY_STRATEGIES` (SRA_fetch_1LLM_improved.py lines 451-458). -/
def EXCLUDED_LIBRARY_STRATEGIES : List String :=
  ["WGA", "CLONE", "POOLCLONE", "CLONEEND", "FINISHING",
   "Synthetic-Long-Read", "FAIRE-seq", "SELEX", "RIP-Seq", "ChIA-PET",
   "MNase-Seq", "DNase-Hypersensitivity", "EST", "FL-cDNA", "CTS", "MRE-Seq",
   "MeDIP-Seq", "MBD-Seq", "Tn-Seq", "VALIDATION", "OTHER"]

/-- `OUTPUT_COLUMNS` (SRA_fetch_1LLM_improved.py lines 460-465). -/
def OUTPUT_COLUMNS : Row :=
  ["sra_experiment_id", "gse_accession", "gsm_accession", "species",
   "sequencing_technique", "sample_type", "cell_line_name", "tissue_type",
   "disease_description", "treatment", "is_chipseq_related_experiment",
   "chipseq_antibody_target", "scientific_sample_summary"]

/-- `BATCH_SIZE = 10` (SRA_fetch_1LLM_improved.py line 446). -/
def BATCH_SIZE : Nat := 10

/-! ## Study grouping and rotating LLM sessions (`SimpleLLMProcessor`) -/

/-- `SimpleLLMProcessor._extract_study_id` (SRA_fetch_1LLM_improved.py
lines 506-513): the GSE accession when known, else the first eight characters
of a valid archive accession, else the raw identifier. -/
def extract_study_id (srx_id : String) (gse_id : String) : String :=
  if gse_id ≠ "" ∧ gse_id ≠ "N/A" then gse_id
  else if isAccessionId srx_id then pyTake srx_id 8
  else srx_id

/-- The study-level context mapping `_study_context`: field name to the list of
observed values (a Python dict of lists, modelled as an association list). -/
abbrev StudyCtx := List (String × List String)

/-- Python `key in ctx` / `ctx[key]` on the study-context dict. -/
def ctxLookup (ctx : StudyCtx) (key : String) : Option (List String) :=
  match ctx.find? (fun p => p.1 = key) with
  | some p => some p.2
  | none => none

/-- The mutable state of `SimpleLLMProcessor` relevant to session rotation
(fields set in `__init__`, lines 470-478). -/
structure ProcState where
  fresh_instance_per_study : Bool
  current_study_id : Option String
  study_sample_count : Nat
  study_context : StudyCtx
  study_summary : Option String
deriving Repr, DecidableEq

/-- Outcome of one `get_llm_for_study` call: whether a fresh LLM instance was
created, whether the context was flagged as preserved, the context mapping
returned to the caller, and the updated processor state. -/
structure StudyLLMResult where
  need_refresh : Bool
  preserve_context : Bool
  context : StudyCtx
  state : ProcState
deriving Repr, DecidableEq

/-- `SimpleLLMProcessor.get_llm_for_study` (lines 515-553).  The LLM instance
itself is an external handle; the embedding records whether a fresh one was
created (`need_refresh`).  On a new study key the context, summary and sample
count are reset (lines 526-533); within the same key the instance is refreshed
once the sample count reaches 30, preserving the context (lines 534-539); the
count is incremented at the end of every call (line 552). -/
def get_llm_for_study (st : ProcState) (srx_id gse_id : String) :
    StudyLLMResult :=
  let study_id := extract_study_id srx_id gse_id
  if ¬ st.fresh_instance_per_study then
    { need_refresh := false, preserve_context := true, context := [],
      state := st }
  else if st.current_study_id ≠ some study_id then
    { need_refresh := true, preserve_context := false, context := [],
      state := { st with current_study_id := some study_id,
                         study_sample_count := 1, study_context := [],
                         study_summary := none } }
  else if 30 ≤ st.study_sample_count then
    { need_refresh := true, preserve_context := true,
      context := st.study_context,
      state := { st with study_sample_count := 1 } }
  else
    { need_refresh := false, preserve_context := true,
      context := st.study_context,
      state := { st with study_sample_count := st.study_sample_count + 1 } }

/-! ## Per-sample study-consistency validation (`process_single_srx`) -/

/-- The three fields of `parsed_data` that the study-consistency block reads or
writes; the other eight metadata fields are untouched by it. -/
structure ParsedData where
  species : String
  sample_type : String
  cell_line_name : String
deriving Repr, DecidableEq

/-- The species block of the STUDY CONSISTENCY VALIDATION step
(SRA_fetch_1LLM_improved.py lines 1205-1212): with exactly one historical
value, a populated (non-`"N/A"`) candidate that differs is overwritten.
(The source's `isinstance(..., list)` test always holds: context values are
built as lists by `update_study_context`.) -/
def species_consistency_fix (ctx : StudyCtx) (pd : ParsedData) : ParsedData :=
  match ctxLookup ctx "species" with
  | none => pd
  | some prev =>
    if pd.species = "N/A" then pd
    else if prev.length = 1 then
      let expected := prev.headI
      if pd.species ≠ expected then { pd with species := expected } else pd
    else pd

/-- The cell-line block of the STUDY CONSISTENCY VALIDATION step
(lines 1214-1221): for `"Cell Line"` samples with exactly one historical
value, only the `"N/A"` candidate is overwritten. -/
def cell_line_consistency_fix (ctx : StudyCtx) (pd : ParsedData) :
    ParsedData :=
  match ctxLookup ctx "cell_line_name" with
  | none => pd
  | some prev =>
    if pd.sample_type = "Cell Line" then
      if prev.length = 1 then
        let expected := prev.headI
        if pd.cell_line_name ≠ expected ∧ pd.cell_line_name = "N/A" then
          { pd with cell_line_name := expected }
        else pd
      else pd
    else pd

/-- The STUDY CONSISTENCY VALIDATION block of `process_single_srx`
(SRA_fetch_1LLM_improved.py lines 1200-1221): guarded by a non-empty study
context, the species block runs first, then the cell-line block on its
result. -/
def validate_study_consistency (ctx : StudyCtx) (pd : ParsedData) :
    ParsedData :=
  if ctx = [] then pd
  else cell_line_consistency_fix ctx (species_consistency_fix ctx pd)

/-! ## The batch reader `read_runinfo_batches` -/

/-- The row loop of `read_runinfo_batches` (SRA_fetch_1LLM_improved.py lines
1619-1658) for the rows of one growth cycle, carrying the current partial
batch.  Rows shorter than both column indices are skipped (`continue`, line
1629); rows whose identifier has a valid archive prefix and whose library
strategy is not excluded append their identifier; a batch is yielded as soon
as it reaches `batch_size`, and any non-empty remainder is yielded at the end
of the cycle (lines 1656-1658). -/
def read_cycle_go (srxIdx libIdx batchSize : Nat) (batch : List String) :
    List Row → List (List String)
  | [] => if batch = [] then [] else [batch]
  | row :: rest =>
    if row.length ≤ max libIdx srxIdx then
      read_cycle_go srxIdx libIdx batchSize batch rest
    else
      let lib := pyStrip (row.getD libIdx "")
      let srx := pyStrip (row.getD srxIdx "")
      if isAccessionId srx then
        if lib ∈ EXCLUDED_LIBRARY_STRATEGIES then
          read_cycle_go srxIdx libIdx batchSize batch rest
        else
          let b2 := batch ++ [srx]
          if batchSize ≤ b2.length then
            b2 :: read_cycle_go srxIdx libIdx batchSize [] rest
          else read_cycle_go srxIdx libIdx batchSize b2 rest
      else
        if batchSize ≤ batch.length then
          batch :: read_cycle_go srxIdx libIdx batchSize [] rest
        else read_cycle_go srxIdx libIdx batchSize batch rest

/-- `read_runinfo_batches`: the corpus header is parsed once (lines 1604-1613)
to locate the `Experiment` and `LibraryStrategy` columns; each growth cycle
then processes its row list with a fresh partial batch.  `cycles` is the
sequence of row lists the per-cycle loop consumes.  In the real generator
these lists need not partition the corpus data rows: the file is reopened
every cycle and the skip loop `for _ in range(processed_rows)` (lines
1615-1617) counts the header among the skipped rows once `header_processed`
is set, so from the second growth cycle on the row list starts one row early,
re-reading the last data row of the previous read — `trace_cycle_rows` below
derives the actual lists from file snapshots.  Quantifying over arbitrary
`cycles` therefore covers the real traces.  If either required column is
missing the generator keeps retrying without yielding (the `ValueError`
branch), modelled as producing no batches. -/
def read_runinfo_batches (hdr : Row) (cycles : List (List Row))
    (batchSize : Nat) : List (List String) :=
  match hdr.findIdx? (fun f => f = "Experiment"),
        hdr.findIdx? (fun f => f = "LibraryStrategy") with
  | some srxIdx, some libIdx =>
    (cycles.map (read_cycle_go srxIdx libIdx batchSize [])).flatten
  | _, _ => []

/-- The identifier a corpus row contributes when it is eligible (valid archive
prefix, library strategy not excluded, row long enough), and `none` otherwise:
the classification applied by the reader loop. -/
def eligibleId (srxIdx libIdx : Nat) (row : Row) : Option String :=
  if row.length ≤ max libIdx srxIdx then none
  else
    let lib := pyStrip (row.getD libIdx "")
    let srx := pyStrip (row.getD srxIdx "")
    if isAccessionId srx then
      if lib ∈ EXCLUDED_LIBRARY_STRATEGIES then none else some srx
    else none

/-- The row lists the generator's per-cycle loop actually consumes, derived
from the corpus file snapshots (lines 1590-1626).  Each growth cycle reopens
the file from the start.  On the first cycle the header is consumed by
`next(reader)` (line 1605) before the skip loop runs, so the loop sees the
data rows from the cursor on; on every later cycle `header_processed` is
already set, the header is not consumed, and the skip loop
`for _ in range(processed_rows): next(reader, None)` (lines 1616-1617) counts
the header line among the skipped rows — the cycle's rows start one row
early, re-reading the last data row of the first cycle.  `processed_rows`
advances by one per row iterated (line 1625), including the re-read row, so
the overcount matches the header from then on and later cycles resume
correctly.  `hdr` is the header row, `processed` the `processed_rows`
counter, and each snapshot the list of data rows present when that cycle
runs. -/
def trace_cycle_rows (hdr : Row) : Bool → Nat → List (List Row) → List (List Row)
  | _, _, [] => []
  | first, processed, snap :: rest =>
    let rows := if first then snap.drop processed else (hdr :: snap).drop processed
    rows :: trace_cycle_rows hdr false (processed + rows.length) rest

/-- `read_runinfo_batches` run on a real multi-cycle trace: the batches the
generator yields when the corpus data rows are `snapshots.getD k` at growth
cycle `k`, with the per-cycle row lists derived by the resume-cursor logic of
`trace_cycle_rows`. -/
def read_runinfo_batches_trace (hdr : Row) (snapshots : List (List Row))
    (batchSize : Nat) : List (List String) :=
  read_runinfo_batches hdr (trace_cycle_rows hdr true 0 snapshots) batchSize

/-! ## The resume index `load_already_processed_samples` -/

/-- `srx_id` carries one of the explicit error markers
(SRA_fetch_1LLM_improved.py line 1888). -/
def isErrorEntry (s : String) : Bool :=
  strContains s "NO_SRA_IDS_FOUND" || strContains s "TIMEOUT_ERROR" ||
    strContains s "PROCESSING_ERROR"

/-- The row scan of `load_already_processed_samples` (lines 1880-1891), given
the index of the `sra_experiment_id` column.  A data row shorter than the
header leaves that column `None` in `csv.DictReader`, so `.strip()` raises and
the `except` clause returns the identifiers collected so far — modelled by
cutting the scan off at the first such row. -/
def load_loop (idx : Nat) : List Row → List String
  | [] => []
  | row :: rest =>
    if idx < row.length then
      let srx := pyStrip (row.getD idx "")
      if srx ≠ "" ∧ isAccessionId srx then
        if isErrorEntry srx then load_loop idx rest
        else srx :: load_loop idx rest
      else load_loop idx rest
    else []

/-- `load_already_processed_samples` (lines 1867-1908) on the rows of an
existing result file (header first).  A missing file or a header without the
`sra_experiment_id` column yields the empty set. -/
def load_already_processed_samples : List Row → List String
  | [] => []
  | hdr :: rows =>
    match hdr.findIdx? (fun f => f = "sra_experiment_id") with
    | none => []
    | some idx => load_loop idx rows

/-! ## Per-sample processing and the main streaming loop -/

/-- `process_single_srx` (SRA_fetch_1LLM_improved.py lines 1154-1269).
`fetchXml` is the external `efetch` call (line 1156); when it yields nothing
the function returns `None` (lines 1157-1158).  Otherwise the result row is
the identifier followed by the GEO accessions and LLM-derived metadata fields
(lines 1254-1268); those twelve values are produced by the external backend
and are modelled by the oracle `enrich`. -/
def process_single_srx (fetchXml : String → Option String)
    (enrich : String → String → List String) (srx_id : String) :
    Option (List String) :=
  match fetchXml srx_id with
  | none => none
  | some xml => some (srx_id :: enrich srx_id xml)

/-- Result of the streaming loop: the data rows written (in order) and the
identifiers skipped by the resume check. -/
structure LoopOutcome where
  written : List Row
  skipped : List String
deriving Repr, DecidableEq

/-- The per-identifier loop of `stream_process_keyword` (lines 1733-1759):
identifiers in the resume set are skipped (lines 1739-1743); otherwise
`process_single_srx` runs and its row is written only when it returned one
(`if result:`, lines 1745-1747).  A processing exception is caught and the
loop continues without writing (lines 1757-1759), which the `none` outcome of
the oracle also covers. -/
def stream_loop (already : List String) (fetchXml : String → Option String)
    (enrich : String → String → List String) : List String → LoopOutcome
  | [] => { written := [], skipped := [] }
  | srx :: rest =>
    if srx ∈ already then
      let r := stream_loop already fetchXml enrich rest
      { r with skipped := srx :: r.skipped }
    else
      match process_single_srx fetchXml enrich srx with
      | some row =>
        let r := stream_loop already fetchXml enrich rest
        { r with written := row :: r.written }
      | none => stream_loop already fetchXml enrich rest

/-- `stream_process_keyword` (lines 1699-1759) at the file level: in append
mode the resume set is loaded from the existing result file, which is kept and
extended; otherwise the file is rewritten starting with the
`OUTPUT_COLUMNS` header.  `batches` is the sequence the batch reader yields. -/
def stream_process_keyword (append : Bool) (prior : List Row)
    (fetchXml : String → Option String)
    (enrich : String → String → List String)
    (batches : List (List String)) : List Row × LoopOutcome :=
  let already := if append then load_already_processed_samples prior else []
  let out := stream_loop already fetchXml enrich batches.flatten
  ((if append then prior else [OUTPUT_COLUMNS]) ++ out.written, out)

/-! ## The acquisition worker's degraded mode -/

/-- The 47-column runinfo header written verbatim in the degraded branches of
`start_streaming_download` (lines 1294, 1310, 1418). -/
def RUNINFO_HEADER_LINE : String :=
  "Run,ReleaseDate,LoadDate,spots,bases,spots_with_mates,avgLength,size_MB,AssemblyName,download_path,Experiment,LibraryName,LibraryStrategy,LibrarySelection,LibrarySource,LibraryLayout,InsertSize,InsertDev,Platform,Model,SRAStudy,BioProject,Study_Pubmed_id,ProjectID,Sample,BioSample,SampleType,TaxID,ScientificName,SampleName,g1k_pop_code,source,g1k_analysis_group,Subject_ID,Sex,Disease,Tumor,Affection_Status,Analyte_Type,Histological_Type,Body_Site,CenterName,Submission,dbgap_study_accession,Consent,RunHash,ReadHash"

/-- The runinfo header as a parsed row. -/
def runinfoHeader : Row := parseCsvLine RUNINFO_HEADER_LINE

/-- The corpus file produced by `start_streaming_download`'s worker
(lines 1273-1427): when the NCBI tools are unavailable it writes the header
row only and returns (lines 1286-1298); the online branch drives the external
`esearch`/`efetch` processes and is modelled by the oracle `download`. -/
def start_streaming_download (tools_available : Bool)
    (download : Unit → List Row) : List Row :=
  if tools_available then download () else [runinfoHeader]

/-! ## The incremental corpus merge `incremental_merge_from_temp` -/

/-- Dedup-set rebuild from the corpus file (lines 1438-1454): only attempted
for a corpus file of more than 100 bytes; collects each data-row value of the
`Experiment` column that carries a valid archive prefix. -/
def load_existing_srx_ids (main : List Row) : List String :=
  if 100 < fileSizeBytes main then
    match main with
    | [] => []
    | header :: rows =>
      match header.findIdx? (fun f => f = "Experiment") with
      | none => []
      | some idx =>
        rows.filterMap (fun row =>
          if idx < row.length then
            let srx := pyStrip (row.getD idx "")
            if isAccessionId srx then some srx else none
          else none)
  else []

/-- The XML-markup filter of the final merge (lines 1469-1479): drop
`<?xml ...>` openers, everything up to the closing `</eFetchResult>`, and
blank lines; keep the rest. -/
def clean_xml_lines : List String → Bool → List String
  | [], _ => []
  | line :: rest, in_xml =>
    if pyStartsWith (pyStrip line) "<?xml" then clean_xml_lines rest true
    else if in_xml ∧ pyStartsWith (pyStrip line) "</eFetchResult>" then
      clean_xml_lines rest false
    else if ¬ in_xml ∧ pyStrip line ≠ "" then line :: clean_xml_lines rest in_xml
    else clean_xml_lines rest in_xml

/-- Accumulator of the merge scans: the dedup set and the rows to append. -/
structure MergeAcc where
  existing : List String
  samples : List Row
deriving Repr, DecidableEq

/-- One data row of the final merge (lines 1492-1502): append the row if its
`Experiment` value is new and a valid accession, unless its library strategy
is excluded. -/
def merge_final_step (srxIdx : Nat) (libIdx : Option Nat) (acc : MergeAcc)
    (row : Row) : MergeAcc :=
  if srxIdx < row.length then
    let srx := pyStrip (row.getD srxIdx "")
    if srx ∉ acc.existing ∧ isAccessionId srx then
      match libIdx with
      | some li =>
        if li < row.length then
          let lib := pyStrip (row.getD li "")
          if lib ∈ EXCLUDED_LIBRARY_STRATEGIES then acc
          else { existing := srx :: acc.existing, samples := acc.samples ++ [row] }
        else { existing := srx :: acc.existing, samples := acc.samples ++ [row] }
      | none => { existing := srx :: acc.existing, samples := acc.samples ++ [row] }
    else acc
  else acc

/-- Accumulator of the incremental (line-oriented) merge: the header row once
seen, plus the dedup set and collected rows. -/
structure IncAcc where
  header_row : Option Row
  existing : List String
  samples : List Row
deriving Repr, DecidableEq

/-- One line of the incremental merge (lines 1508-1528): skip blank and XML
lines, parse the line, require more than ten columns, take the first
`Experiment`-bearing row as the header, and append later rows with a new,
valid identifier. -/
def merge_incr_step (acc : IncAcc) (line : String) : IncAcc :=
  if pyStrip line ≠ "" ∧ ¬ pyStartsWith line "<?xml" ∧
      ¬ pyStartsWith line "<eFetchResult>" then
    let row := parseCsvLine line
    if 10 < row.length then
      match acc.header_row with
      | none =>
        if "Experiment" ∈ row then { acc with header_row := some row } else acc
      | some hdr =>
        match hdr.findIdx? (fun f => f = "Experiment") with
        | none => acc
        | some idx =>
          if idx < row.length then
            let srx := pyStrip (row.getD idx "")
            if srx ∉ acc.existing ∧ isAccessionId srx then
              { acc with existing := srx :: acc.existing,
                         samples := acc.samples ++ [row] }
            else acc
          else acc
    else acc
  else acc

/-- The write-back step (lines 1534-1559): nothing to do without new samples;
otherwise append to a non-empty corpus file, or start a fresh one with the
header row.  Returns the new corpus contents and the sample count reported. -/
def merge_write_back (main : List Row) (header_row : Option Row)
    (new_samples : List Row) : List Row × Nat :=
  if new_samples = [] then (main, 0)
  else
    let base :=
      if main ≠ [] then main
      else match header_row with
           | some h => [h]
           | none => []
    (base ++ new_samples, new_samples.length)

/-- `incremental_merge_from_temp` (lines 1429-1559).  `tempContent` is the raw
scratch-file text, `main` the corpus rows, `skip_bytes` the `f.seek` offset
(chars = bytes: the content is ASCII), `final_merge` selects the
whole-file/XML-cleaning mode over the bounded line-oriented mode. -/
def incremental_merge_from_temp (tempContent : String) (main : List Row)
    (skip_bytes : Nat) (final_merge : Bool) : List Row × Nat :=
  if tempContent.data.length ≤ skip_bytes then (main, 0)
  else
    let existing0 := load_existing_srx_ids main
    let remaining := tempContent.data.drop skip_bytes
    if final_merge then
      let lines := (splitChar '\n' remaining).map String.mk
      match clean_xml_lines lines false with
      | [] => (main, 0)
      | hline :: rest =>
        let header_row := parseCsvLine hline
        match header_row.findIdx? (fun f => f = "Experiment") with
        | none => (main, 0)
        | some srxIdx =>
          let libIdx := header_row.findIdx? (fun f => f = "LibraryStrategy")
          let acc := (rest.map parseCsvLine).foldl
            (merge_final_step srxIdx libIdx) ⟨existing0, []⟩
          merge_write_back main (some header_row) acc.samples
    else
      let lines := (((splitChar '\n' remaining).map String.mk).take 1000)
      let acc := lines.foldl merge_incr_step ⟨none, existing0, []⟩
      merge_write_back main acc.header_row acc.samples

/-- Recursive form of the final-merge row scan: the list of rows the fold
starting from dedup set `E` appends.  Mirrors `merge_final_step` branch by
branch; used to reason about the fold. -/
def merge_final_new (srxIdx : Nat) (libIdx : Option Nat) (E : List String) :
    List Row → List Row
  | [] => []
  | row :: rest =>
    if srxIdx < row.length then
      let srx := pyStrip (row.getD srxIdx "")
      if srx ∉ E ∧ isAccessionId srx then
        match libIdx with
        | some li =>
          if li < row.length then
            if pyStrip (row.getD li "") ∈ EXCLUDED_LIBRARY_STRATEGIES then
              merge_final_new srxIdx libIdx E rest
            else row :: merge_final_new srxIdx libIdx (srx :: E) rest
          else row :: merge_final_new srxIdx libIdx (srx :: E) rest
        | none => row :: merge_final_new srxIdx libIdx (srx :: E) rest
      else merge_final_new srxIdx libIdx E rest
    else merge_final_new srxIdx libIdx E rest

/-- Recursive form of the incremental-merge line scan: the rows appended from
header state `hr` and dedup set `E`.  Mirrors `merge_incr_step` branch by
branch. -/
def merge_incr_new (hr : Option Row) (E : List String) :
    List String → List Row
  | [] => []
  | line :: rest =>
    if pyStrip line ≠ "" ∧ ¬ pyStartsWith line "<?xml" ∧
        ¬ pyStartsWith line "<eFetchResult>" then
      let row := parseCsvLine line
      if 10 < row.length then
        match hr with
        | none =>
          if "Experiment" ∈ row then merge_incr_new (some row) E rest
          else merge_incr_new none E rest
        | some hdr =>
          match hdr.findIdx? (fun f => f = "Experiment") with
          | none => merge_incr_new (some hdr) E rest
          | some idx =>
            if idx < row.length then
              let srx := pyStrip (row.getD idx "")
              if srx ∉ E ∧ isAccessionId srx then
                row :: merge_incr_new (some hdr) (srx :: E) rest
              else merge_incr_new (some hdr) E rest
            else merge_incr_new (some hdr) E rest
      else merge_incr_new hr E rest
    else merge_incr_new hr E rest

/-- The header state after the incremental-merge line scan (its evolution
does not depend on the dedup set). -/
def merge_incr_hdr (hr : Option Row) : List String → Option Row
  | [] => hr
  | line :: rest =>
    if pyStrip line ≠ "" ∧ ¬ pyStartsWith line "<?xml" ∧
        ¬ pyStartsWith line "<eFetchResult>" then
      let row := parseCsvLine line
      if 10 < row.length then
        match hr with
        | none =>
          if "Experiment" ∈ row then merge_incr_hdr (some row) rest
          else merge_incr_hdr none rest
        | some hdr => merge_incr_hdr (some hdr) rest
      else merge_incr_hdr hr rest
    else merge_incr_hdr hr rest

/-! ## The non-streaming driver (`SRA_fetch.py` `main`) -/

/-- `FINAL_OUTPUT_COLUMNS` (= `INITIAL_OUTPUT_COLUMNS`, SRA_fetch.py lines
41-55). -/
def FINAL_OUTPUT_COLUMNS : Row :=
  ["original_keyword", "sra_experiment_id", "gse_accession", "gsm_accession",
   "experiment_title", "species", "sequencing_technique", "sample_type",
   "cell_line_name", "tissue_type", "tissue_source_details",
   "disease_description", "sample_treatment_protocol",
   "clinical_sample_identifier", "library_source", "instrument_model",
   "is_chipseq_related_experiment", "chipseq_antibody_target",
   "chipseq_control_description", "chipseq_igg_control_present",
   "chipseq_input_control_present", "chipseq_nfcore_summary_lines",
   "scientific_sample_summary"]

/-- The placeholder record written when a keyword produced no identifiers
(SRA_fetch.py lines 957-961): every column `"N/A"` except the keyword, the
explicit `NO_SRA_IDS_FOUND_FOR_KEYWORD` marker and the summary message. -/
def placeholder_no_ids_record (keyword : String) : List (String × String) :=
  FINAL_OUTPUT_COLUMNS.map (fun c =>
    (c, if c = "original_keyword" then keyword
        else if c = "sra_experiment_id" then "NO_SRA_IDS_FOUND_FOR_KEYWORD"
        else if c = "scientific_sample_summary" then
          "No SRA Experiment IDs were found for this keyword."
        else "N/A"))

/-- The records `SRA_fetch.py`'s `main` writes for one keyword (lines
953-1011): exactly one placeholder when the identifier list is empty,
otherwise one record per identifier from `_process_single_srx` (an external
LLM-driven computation, modelled by the oracle `proc`; the worker pool's
completion order is immaterial to the claims below). -/
def fetch_keyword_records (keyword : String) (ids : List String)
    (proc : String → List (String × String)) : List (List (String × String)) :=
  if ids = [] then [placeholder_no_ids_record keyword]
  else ids.map proc

/-! ## JSON extraction from LLM responses (`LLMProcessor._run_llm_chain`) -/

/-- The opening-brace character (written via its code point: braces inside
string or character literals are avoided throughout this file). -/
def lbrace : Char := Char.ofNat 123

/-- The closing-brace character. -/
def rbrace : Char := Char.ofNat 125

/-- The backtick character. -/
def btick : Char := Char.ofNat 96

/-- JSON/regex whitespace (ASCII; all inputs considered are ASCII). -/
def isReWs (c : Char) : Bool :=
  c = ' ' || c = '\t' || c = '\n' || c = '\r' || c = '\x0b' || c = '\x0c'

/-- The top-level kind of a parsed JSON value (`json.loads` result type). -/
inductive JsonKind where
  | obj | arr | str | num | boolv | nullv
deriving Repr, DecidableEq

/-- Skip JSON whitespace (space, tab, newline, carriage return). -/
def skipJsonWs (l : List Char) : List Char :=
  l.dropWhile (fun c => c = ' ' || c = '\t' || c = '\n' || c = '\r')

/-- Hexadecimal digit test for `\uXXXX` escapes. -/
def isHexDigit (c : Char) : Bool :=
  c.isDigit || ('a' ≤ c ∧ c ≤ 'f') || ('A' ≤ c ∧ c ≤ 'F')

/-- Parse the remainder of a JSON string literal (after the opening quote),
with the escapes and the control-character restriction of strict
`json.loads`.  Returns the input after the closing quote. -/
def jsonStringRest : List Char → Option (List Char)
  | [] => none
  | c :: rest =>
    if c = '"' then some rest
    else if c = '\\' then
      match rest with
      | [] => none
      | e :: rest2 =>
        if e = '"' || e = '\\' || e = '/' || e = 'b' || e = 'f' || e = 'n' ||
            e = 'r' || e = 't' then jsonStringRest rest2
        else if e = 'u' then
          match rest2 with
          | h1 :: h2 :: h3 :: h4 :: rest3 =>
            if isHexDigit h1 && isHexDigit h2 && isHexDigit h3 && isHexDigit h4
            then jsonStringRest rest3 else none
          | _ => none
        else none
    else if c.toNat < 32 then none
    else jsonStringRest rest

/-- Parse the digits/fraction/exponent of a JSON number after an optional
minus sign; the leading-zero rule of `json.loads` is enforced.  Returns the
input after the number. -/
def jsonNumberRest (l : List Char) : Option (List Char) :=
  match l with
  | [] => none
  | c :: rest =>
    if c = '0' then afterInt rest
    else if c.isDigit then afterInt (rest.dropWhile Char.isDigit)
    else none
where
  afterExp (l : List Char) : Option (List Char) :=
    match l with
    | e :: rest =>
      if e = 'e' || e = 'E' then
        let rest2 := match rest with
                     | s :: r => if s = '+' || s = '-' then r else rest
                     | [] => rest
        match rest2 with
        | d :: _ => if d.isDigit then some (rest2.dropWhile Char.isDigit)
                    else none
        | [] => none
      else some l
    | [] => some []
  afterFrac (l : List Char) : Option (List Char) :=
    match l with
    | p :: rest =>
      if p = '.' then
        match rest with
        | d :: _ => if d.isDigit then afterExp (rest.dropWhile Char.isDigit)
                    else none
        | [] => none
      else afterExp l
    | [] => some []
  afterInt (l : List Char) : Option (List Char) := afterFrac l

mutual

/-- Parse one JSON value; returns its kind and the remaining input.  Fuel
decreases on every recursive call; `jsonLoads` supplies enough for any input.
Mirrors strict `json.loads`, including its acceptance of `NaN`, `Infinity`
and `-Infinity`. -/
def jsonValue (fuel : Nat) (l : List Char) : Option (JsonKind × List Char) :=
  match fuel with
  | 0 => none
  | fuel + 1 =>
    match l with
    | [] => none
    | c :: rest =>
      if c = lbrace then
        match jsonObjRest fuel (skipJsonWs rest) true with
        | some rest2 => some (JsonKind.obj, rest2)
        | none => none
      else if c = '[' then
        match jsonArrRest fuel (skipJsonWs rest) true with
        | some rest2 => some (JsonKind.arr, rest2)
        | none => none
      else if c = '"' then
        match jsonStringRest rest with
        | some rest2 => some (JsonKind.str, rest2)
        | none => none
      else if c = 't' then
        if rest.take 3 = ['r', 'u', 'e'] then some (JsonKind.boolv, rest.drop 3)
        else none
      else if c = 'f' then
        if rest.take 4 = ['a', 'l', 's', 'e'] then
          some (JsonKind.boolv, rest.drop 4)
        else none
      else if c = 'n' then
        if rest.take 3 = ['u', 'l', 'l'] then some (JsonKind.nullv, rest.drop 3)
        else none
      else if c = 'N' then
        if rest.take 2 = ['a', 'N'] then some (JsonKind.num, rest.drop 2)
        else none
      else if c = 'I' then
        if rest.take 7 = ['n', 'f', 'i', 'n', 'i', 't', 'y'] then
          some (JsonKind.num, rest.drop 7)
        else none
      else if c = '-' then
        match rest with
        | 'I' :: r2 =>
          if r2.take 7 = ['n', 'f', 'i', 'n', 'i', 't', 'y'] then
            some (JsonKind.num, r2.drop 7)
          else none
        | _ =>
          match jsonNumberRest rest with
          | some rest2 => some (JsonKind.num, rest2)
          | none => none
      else
        match jsonNumberRest l with
        | some rest2 => some (JsonKind.num, rest2)
        | none => none

/-- Parse the members of a JSON object after the opening brace (with leading
whitespace already skipped); `first` marks that no member has been read yet,
so a closing brace is still allowed. -/
def jsonObjRest (fuel : Nat) (l : List Char) (first : Bool) :
    Option (List Char) :=
  match fuel with
  | 0 => none
  | fuel + 1 =>
    match l with
    | [] => none
    | c :: rest =>
      if c = rbrace ∧ first then some rest
      else if c = '"' then
        match jsonStringRest rest with
        | none => none
        | some afterKey =>
          match skipJsonWs afterKey with
          | ':' :: afterColon =>
            match jsonValue fuel (skipJsonWs afterColon) with
            | none => none
            | some (_, afterVal) =>
              match skipJsonWs afterVal with
              | ',' :: afterComma =>
                jsonObjMore fuel (skipJsonWs afterComma)
              | c2 :: rest2 => if c2 = rbrace then some rest2 else none
              | [] => none
          | _ => none
      else none

/-- After a comma inside an object: a further member is mandatory. -/
def jsonObjMore (fuel : Nat) (l : List Char) : Option (List Char) :=
  match fuel with
  | 0 => none
  | fuel + 1 => jsonObjRest fuel l false

/-- Parse the elements of a JSON array after the opening bracket (with
leading whitespace already skipped). -/
def jsonArrRest (fuel : Nat) (l : List Char) (first : Bool) :
    Option (List Char) :=
  match fuel with
  | 0 => none
  | fuel + 1 =>
    match l with
    | [] => none
    | c :: _ =>
      if c = ']' ∧ first then some (l.drop 1)
      else
        match jsonValue fuel l with
        | none => none
        | some (_, afterVal) =>
          match skipJsonWs afterVal with
          | ',' :: afterComma => jsonArrMore fuel (skipJsonWs afterComma)
          | ']' :: rest2 => some rest2
          | _ => none

/-- After a comma inside an array: a further element is mandatory. -/
def jsonArrMore (fuel : Nat) (l : List Char) : Option (List Char) :=
  match fuel with
  | 0 => none
  | fuel + 1 => jsonArrRest fuel l false

end

/-- `json.loads` acceptance: the top-level kind of the parsed value, or
`none` when the string is rejected (trailing non-whitespace rejects too). -/
def jsonLoads (s : String) : Option JsonKind :=
  let l := skipJsonWs s.data
  match jsonValue (4 * l.length + 4) l with
  | some (k, rest) => if skipJsonWs rest = [] then some k else none
  | none => none

/-- Match a literal character sequence at the head of the input (optionally
case-insensitively), returning the remainder. -/
def dropLit (ci : Bool) : List Char → List Char → Option (List Char)
  | [], l => some l
  | _ :: _, [] => none
  | p :: ps, c :: cs =>
    if (if ci then p.toLower = c.toLower else p = c) then dropLit ci ps cs
    else none

/-- The literal three backticks of the fence pattern. -/
def fenceTicks : List Char := [btick, btick, btick]

/-- Does the input continue with `\s*` followed by three backticks — the tail
of the fence pattern after the captured group? -/
def closesFence (l : List Char) : Bool :=
  match dropLit false fenceTicks (l.dropWhile isReWs) with
  | some _ => true
  | none => false

/-- The non-greedy body scan of the fence pattern
(`` ```json\s*([\{\[].*?[\]\}])\s*``` ``, SRA_fetch.py line 394): starting
after the opening bracket character, consume the shortest run ending at a
closing bracket character whose tail completes the fence; `acc` holds the
group read so far, reversed. -/
def fenceBody (acc : List Char) : List Char → Option (List Char)
  | [] => none
  | c :: rest =>
    if (c = rbrace ∨ c = ']') ∧ closesFence rest then
      some (acc.reverse ++ [c])
    else fenceBody (c :: acc) rest

/-- Try the full fence pattern anchored at the head of the input, returning
the captured group. -/
def fenceAt (l : List Char) : Option (List Char) :=
  match dropLit false fenceTicks l with
  | none => none
  | some l1 =>
    match dropLit true ['j', 's', 'o', 'n'] l1 with
    | none => none
    | some l2 =>
      match l2.dropWhile isReWs with
      | c :: rest =>
        if c = lbrace ∨ c = '[' then fenceBody [c] rest else none
      | [] => none

/-- `re.search` of the fence pattern: leftmost position at which the pattern
matches, `DOTALL | IGNORECASE` (SRA_fetch.py line 394). -/
def fenceSearch : List Char → Option (List Char)
  | [] => none
  | c :: rest =>
    match fenceAt (c :: rest) with
    | some g => some g
    | none => fenceSearch rest

/-- `re.search(r'(\{.*?\})', text, re.DOTALL)` and its `[`/`]` counterpart
(SRA_fetch.py lines 405-406): the leftmost opening character from which a
closing character is reachable, paired with the shortest such span.  Returns
the start index and the span. -/
def firstSpanFrom (openC closeC : Char) : List Char → Option (Nat × List Char)
  | [] => none
  | c :: rest =>
    if c = openC then
      match rest.findIdx? (fun x => x = closeC) with
      | some k => some (0, c :: rest.take (k + 1))
      | none =>
        (firstSpanFrom openC closeC rest).map (fun p => (p.1 + 1, p.2))
    else (firstSpanFrom openC closeC rest).map (fun p => (p.1 + 1, p.2))

/-- The JSON-candidate extraction of `LLMProcessor._run_llm_chain`
(SRA_fetch.py lines 392-419), on the already-stripped response text: first a
fenced block, else the whole stripped response when it is bracket-delimited,
else the earlier of the first object span and the first array span. -/
def extract_json_candidate (response_text : String) : Option String :=
  match fenceSearch response_text.data with
  | some g => some (pyStrip ⟨g⟩)
  | none =>
    let stripped := pyStrip response_text
    if (pyStartsWith stripped "\x7b" ∧ pyEndsWith stripped "\x7d") ∨
        (pyStartsWith stripped "[" ∧ pyEndsWith stripped "]") then
      some stripped
    else
      match firstSpanFrom lbrace rbrace response_text.data,
            firstSpanFrom '[' ']' response_text.data with
      | some (oi, og), some (ai, ag) =>
        if oi < ai then some (pyStrip ⟨og⟩) else some (pyStrip ⟨ag⟩)
      | some (_, og), none => some (pyStrip ⟨og⟩)
      | none, some (_, ag) => some (pyStrip ⟨ag⟩)
      | none, none => none

/-- One `Metadata Synthesis` parse attempt of `_run_llm_chain` (SRA_fetch.py
lines 388-458): strip the raw response, extract a JSON candidate, and accept
it only if `json.loads` parses it to a dictionary (lines 423, 448-453); any
failure ends the attempt with no result (the caller then retries and finally
returns `None`, line 481). -/
def synthesis_parse_attempt (raw : String) : Option String :=
  let response_text := pyStrip raw
  match extract_json_candidate response_text with
  | none => none
  | some cand =>
    match jsonLoads cand with
    | some JsonKind.obj => some cand
    | _ => none

/-- The candidates that qualify as "well-formed structured spans" of a text:
bracket-delimited contiguous substrings that `json.loads` accepts as an
object or an array. -/
def structuredSpans (l : List Char) : List (List Char) :=
  (l.tails.flatMap (fun t => t.inits)).filter
    (fun s =>
      (s.head? = some lbrace ∨ s.head? = some '[') ∧
      (s.getLast? = some rbrace ∨ s.getLast? = some ']') ∧
      (jsonLoads ⟨s⟩ = some JsonKind.obj ∨ jsonLoads ⟨s⟩ = some JsonKind.arr))

/-- The largest well-formed structured span of a text (earliest among those of
maximal length), per the specification's wording. -/
def largestStructuredSpan (l : List Char) : Option (List Char) :=
  (structuredSpans l).foldl
    (fun best s =>
      match best with
      | none => some s
      | some b => if b.length < s.length then some s else some b)
    none

/-- The parse chain as the specification words it (for comparison with the
source's `extract_json_candidate`/`synthesis_parse_attempt`): first a direct
structured-data parse of the whole response, then a fenced block, then
regex-extraction of the largest well-formed structured span; first success
wins. -/
def claimed_parse_chain (raw : String) : Option String :=
  let t := pyStrip raw
  if (jsonLoads t).isSome then some t
  else
    match fenceSearch t.data with
    | some g => if (jsonLoads (pyStrip ⟨g⟩)).isSome then some (pyStrip ⟨g⟩)
                else (largestStructuredSpan t.data).map (fun s => (⟨s⟩ : String))
    | none => (largestStructuredSpan t.data).map (fun s => (⟨s⟩ : String))

/-- Column access on a record held as (column, value) pairs. -/
def recLookup (r : List (String × String)) (key : String) : Option String :=
  match r.find? (fun p => p.1 = key) with
  | some p => some p.2
  | none => none

/-! ## Helper lemmas -/

/-- A string with a valid archive prefix is non-empty. -/
theorem accession_ne_empty {s : String} (h : isAccessionId s = true) :
    s ≠ "" := by
  intro he
  rw [he] at h
  simp [isAccessionId, pyStartsWith, List.isPrefixOf] at h

/-- The species block never touches `sample_type`. -/
theorem species_fix_sample_type (ctx : StudyCtx) (pd : ParsedData) :
    (species_consistency_fix ctx pd).sample_type = pd.sample_type := by
  unfold species_consistency_fix
  cases ctxLookup ctx "species" with
  | none => rfl
  | some prev => dsimp only; split_ifs <;> rfl

/-- The species block never touches `cell_line_name`. -/
theorem species_fix_cell_line (ctx : StudyCtx) (pd : ParsedData) :
    (species_consistency_fix ctx pd).cell_line_name = pd.cell_line_name := by
  unfold species_consistency_fix
  cases ctxLookup ctx "species" with
  | none => rfl
  | some prev => dsimp only; split_ifs <;> rfl

/-- The cell-line block never touches `species`. -/
theorem cell_fix_species (ctx : StudyCtx) (pd : ParsedData) :
    (cell_line_consistency_fix ctx pd).species = pd.species := by
  unfold cell_line_consistency_fix
  cases ctxLookup ctx "cell_line_name" with
  | none => rfl
  | some prev => dsimp only; split_ifs <;> rfl

/-- Species repair fires exactly on a populated conflicting candidate against
a single-valued history. -/
theorem species_fix_overwrites (ctx : StudyCtx) (pd : ParsedData) (v : String)
    (hlk : ctxLookup ctx "species" = some [v]) (hne : pd.species ≠ "N/A")
    (hnev : pd.species ≠ v) :
    species_consistency_fix ctx pd = { pd with species := v } := by
  unfold species_consistency_fix
  rw [hlk]
  simp [hne, hnev, List.headI]

/-- The `"N/A"` species candidate is never repaired. -/
theorem species_fix_na (ctx : StudyCtx) (pd : ParsedData)
    (h : pd.species = "N/A") : species_consistency_fix ctx pd = pd := by
  unfold species_consistency_fix
  cases ctxLookup ctx "species" <;> simp [h]

/-- A multi-valued species history suppresses the repair. -/
theorem species_fix_multi (ctx : StudyCtx) (pd : ParsedData)
    (hist : List String) (hlk : ctxLookup ctx "species" = some hist)
    (hlen : hist.length ≠ 1) : species_consistency_fix ctx pd = pd := by
  unfold species_consistency_fix
  rw [hlk]
  split_ifs <;> simp_all

/-- A populated cell-line candidate is never repaired. -/
theorem cell_fix_populated (ctx : StudyCtx) (pd : ParsedData)
    (h : pd.cell_line_name ≠ "N/A") : cell_line_consistency_fix ctx pd = pd := by
  unfold cell_line_consistency_fix
  cases ctxLookup ctx "cell_line_name" with
  | none => rfl
  | some prev => dsimp only; split_ifs <;> simp_all

/-- A multi-valued cell-line history suppresses the repair. -/
theorem cell_fix_multi (ctx : StudyCtx) (pd : ParsedData)
    (hist : List String) (hlk : ctxLookup ctx "cell_line_name" = some hist)
    (hlen : hist.length ≠ 1) : cell_line_consistency_fix ctx pd = pd := by
  unfold cell_line_consistency_fix
  rw [hlk]
  split_ifs <;> simp_all

/-- The `"N/A"` cell-line candidate of a `"Cell Line"` sample is repaired to
the single historical value. -/
theorem cell_fix_repairs (ctx : StudyCtx) (pd : ParsedData) (v : String)
    (hlk : ctxLookup ctx "cell_line_name" = some [v])
    (hst : pd.sample_type = "Cell Line") (hcand : pd.cell_line_name = "N/A") :
    (cell_line_consistency_fix ctx pd).cell_line_name = v := by
  unfold cell_line_consistency_fix
  rw [hlk]
  by_cases hv : v = "N/A" <;> simp [hst, hcand, List.headI, hv, eq_comm]

/-! ## Claim theorems -/

/-- C9: with per-study instances enabled, `get_llm_for_study` creates a fresh
LLM instance exactly when the derived study key differs from the current one
or the per-group sample count has reached the threshold of 30; a key change
resets the study-context mapping to empty, while a count-based refresh within
the same key preserves it. -/
theorem C9_session_rotation (st : ProcState) (srx_id gse_id : String)
    (hfresh : st.fresh_instance_per_study = true) :
    ((get_llm_for_study st srx_id gse_id).need_refresh = true ↔
      (st.current_study_id ≠ some (extract_study_id srx_id gse_id) ∨
        30 ≤ st.study_sample_count)) ∧
    (st.current_study_id ≠ some (extract_study_id srx_id gse_id) →
      (get_llm_for_study st srx_id gse_id).state.study_context = [] ∧
      (get_llm_for_study st srx_id gse_id).context = []) ∧
    (st.current_study_id = some (extract_study_id srx_id gse_id) →
      30 ≤ st.study_sample_count →
      (get_llm_for_study st srx_id gse_id).need_refresh = true ∧
      (get_llm_for_study st srx_id gse_id).state.study_context =
        st.study_context ∧
      (get_llm_for_study st srx_id gse_id).context = st.study_context) ∧
    (st.current_study_id = some (extract_study_id srx_id gse_id) →
      st.study_sample_count < 30 →
      (get_llm_for_study st srx_id gse_id).need_refresh = false ∧
      (get_llm_for_study st srx_id gse_id).state.study_context =
        st.study_context) := by
  unfold get_llm_for_study
  rw [hfresh]
  by_cases hkey : st.current_study_id = some (extract_study_id srx_id gse_id)
  · by_cases hcnt : 30 ≤ st.study_sample_count
    · simp [hkey, hcnt]
    · simp [hkey, hcnt, Nat.lt_of_not_le hcnt]
  · simp [hkey]

/-- C9 witness: a concrete state in the middle of study `SRX29141` at count
30 is refreshed with its context preserved. -/
theorem C9_session_rotation_witness :
    (get_llm_for_study
      { fresh_instance_per_study := true,
        current_study_id := some "SRX29141", study_sample_count := 30,
        study_context := [("species", ["Homo sapiens"])],
        study_summary := none } "SRX29141268" "N/A").need_refresh = true ∧
    (get_llm_for_study
      { fresh_instance_per_study := true,
        current_study_id := some "SRX29141", study_sample_count := 30,
        study_context := [("species", ["Homo sapiens"])],
        study_summary := none } "SRX29141268" "N/A").state.study_context =
      [("species", ["Homo sapiens"])] ∧
    (get_llm_for_study
      { fresh_instance_per_study := true,
        current_study_id := some "SRX29141", study_sample_count := 30,
        study_context := [("species", ["Homo sapiens"])],
        study_summary := none } "SRX29141268" "N/A").context =
      [("species", ["Homo sapiens"])] :=
  (C9_session_rotation
    { fresh_instance_per_study := true,
      current_study_id := some "SRX29141", study_sample_count := 30,
      study_context := [("species", ["Homo sapiens"])],
      study_summary := none } "SRX29141268" "N/A" rfl).2.2.1
    (by decide) (by decide)

/-- C3 counterexample: the repair step does not behave as claimed on concrete
inputs.  With exactly one historical species `"Homo sapiens"` and the explicit
unknown marker `"N/A"` as candidate, the candidate is left as `"N/A"` instead
of being overwritten; with exactly one historical cell line `"LNCaP"` and a
conflicting populated candidate `"22Rv1"`, the candidate is left as-is. -/
theorem C3_counterexample :
    (validate_study_consistency [("species", ["Homo sapiens"])]
      { species := "N/A", sample_type := "Primary Tissue",
        cell_line_name := "N/A" }).species = "N/A" ∧
    (validate_study_consistency [("cell_line_name", ["LNCaP"])]
      { species := "Homo sapiens", sample_type := "Cell Line",
        cell_line_name := "22Rv1" }).cell_line_name = "22Rv1" ∧
    ("N/A" : String) ≠ "Homo sapiens" ∧ ("22Rv1" : String) ≠ "LNCaP" := by
  decide

/-- C3 amended: the repair rule is asymmetric per field.  Species: with
exactly one historical value, a populated candidate that conflicts is
overwritten, but the explicit `"N/A"` marker is never repaired.  Cell line
(only for `"Cell Line"` samples): with exactly one historical value, only the
`"N/A"` marker is overwritten, while a conflicting populated candidate is
kept.  With two or more historical values no repair is applied to either
field. -/
theorem C3_repair_rule (ctx : StudyCtx) (pd : ParsedData) :
    (∀ v, ctx ≠ [] → ctxLookup ctx "species" = some [v] →
      pd.species ≠ "N/A" → pd.species ≠ v →
      (validate_study_consistency ctx pd).species = v) ∧
    (pd.species = "N/A" →
      (validate_study_consistency ctx pd).species = "N/A") ∧
    (∀ hist, ctxLookup ctx "species" = some hist → hist.length ≠ 1 →
      (validate_study_consistency ctx pd).species = pd.species) ∧
    (∀ v, ctx ≠ [] → ctxLookup ctx "cell_line_name" = some [v] →
      pd.sample_type = "Cell Line" → pd.cell_line_name = "N/A" →
      (validate_study_consistency ctx pd).cell_line_name = v) ∧
    (pd.cell_line_name ≠ "N/A" →
      (validate_study_consistency ctx pd).cell_line_name =
        pd.cell_line_name) ∧
    (∀ hist, ctxLookup ctx "cell_line_name" = some hist → hist.length ≠ 1 →
      (validate_study_consistency ctx pd).cell_line_name =
        pd.cell_line_name) := by
  refine ⟨?_, ?_, ?_, ?_, ?_, ?_⟩
  · intro v hctx hlk hne hnev
    rw [validate_study_consistency, if_neg hctx, cell_fix_species,
      species_fix_overwrites ctx pd v hlk hne hnev]
  · intro hsp
    by_cases hctx : ctx = []
    · simp [validate_study_consistency, hctx, hsp]
    · rw [validate_study_consistency, if_neg hctx, cell_fix_species,
        species_fix_na ctx pd hsp, hsp]
  · intro hist hlk hlen
    by_cases hctx : ctx = []
    · simp [validate_study_consistency, hctx]
    · rw [validate_study_consistency, if_neg hctx, cell_fix_species,
        species_fix_multi ctx pd hist hlk hlen]
  · intro v hctx hlk hst hcand
    rw [validate_study_consistency, if_neg hctx]
    exact cell_fix_repairs ctx _ v hlk
      (by rw [species_fix_sample_type, hst])
      (by rw [species_fix_cell_line, hcand])
  · intro hcand
    by_cases hctx : ctx = []
    · simp [validate_study_consistency, hctx]
    · rw [validate_study_consistency, if_neg hctx,
        cell_fix_populated ctx _ (by rw [species_fix_cell_line]; exact hcand),
        species_fix_cell_line]
  · intro hist hlk hlen
    by_cases hctx : ctx = []
    · simp [validate_study_consistency, hctx]
    · rw [validate_study_consistency, if_neg hctx,
        cell_fix_multi ctx _ hist hlk hlen, species_fix_cell_line]

/-- C3 witness: the repaired-conflict case at a concrete input — one
historical species `"Homo sapiens"`, populated conflicting candidate
`"unknown"` — is overwritten with the historical value. -/
theorem C3_repair_rule_witness :
    (validate_study_consistency [("species", ["Homo sapiens"])]
      { species := "unknown", sample_type := "Primary Tissue",
        cell_line_name := "N/A" }).species = "Homo sapiens" :=
  (C3_repair_rule [("species", ["Homo sapiens"])]
    { species := "unknown", sample_type := "Primary Tissue",
      cell_line_name := "N/A" }).1 "Homo sapiens"
    (by decide) (by decide) (by decide) (by decide)

/-- The identifiers of one reader cycle, batching aside, are exactly the
eligible identifiers of its rows, appended to the initial partial batch. -/
theorem read_cycle_go_flatten (srxIdx libIdx bs : Nat) :
    ∀ (rows : List Row) (batch : List String),
      (read_cycle_go srxIdx libIdx bs batch rows).flatten
        = batch ++ rows.filterMap (eligibleId srxIdx libIdx) := by
  intro rows
  induction rows with
  | nil =>
    intro batch
    by_cases h : batch = [] <;> simp [read_cycle_go, h]
  | cons row rest ih =>
    intro batch
    simp only [read_cycle_go, eligibleId, List.filterMap_cons]
    split_ifs <;> simp [ih]

/-- Every batch a reader cycle emits is non-empty, holds at most `bs`
identifiers, and holds only archive accessions — given a cap of at least one
and a well-formed partial batch. -/
theorem read_cycle_go_sound (srxIdx libIdx bs : Nat) (hbs : 1 ≤ bs) :
    ∀ (rows : List Row) (batch : List String), batch.length < bs →
      (∀ id ∈ batch, isAccessionId id = true) →
      ∀ b ∈ read_cycle_go srxIdx libIdx bs batch rows,
        b ≠ [] ∧ b.length ≤ bs ∧ ∀ id ∈ b, isAccessionId id = true := by
  intro rows
  induction rows with
  | nil =>
    intro batch hlen hacc b hb
    by_cases h : batch = []
    · simp [read_cycle_go, h] at hb
    · simp [read_cycle_go, h] at hb
      subst hb
      exact ⟨h, Nat.le_of_lt hlen, hacc⟩
  | cons row rest ih =>
    intro batch hlen hacc b hb
    simp only [read_cycle_go] at hb
    split_ifs at hb with h1 h2 h3 h4 h5
    · exact ih batch hlen hacc b hb
    · exact ih batch hlen hacc b hb
    · rcases List.mem_cons.mp hb with rfl | hb2
      · refine ⟨by simp, by simpa using hlen, ?_⟩
        intro id hid
        rcases List.mem_append.mp hid with hid1 | hid2
        · exact hacc id hid1
        · simp at hid2
          simpa [hid2] using h2
      · exact ih [] (Nat.lt_of_lt_of_le Nat.zero_lt_one hbs) (by simp) b hb2
    · refine ih (batch ++ [pyStrip (row.getD srxIdx "")]) ?_ ?_ b hb
      · simpa using Nat.lt_of_not_le h4
      · intro id hid
        rcases List.mem_append.mp hid with hid1 | hid2
        · exact hacc id hid1
        · simp at hid2
          simpa [hid2] using h2
    · exact absurd h5 (Nat.not_le_of_lt hlen)
    · exact ih batch hlen hacc b hb

/-- C10: every batch the reader yields is non-empty, contains at most
`batch_size` identifiers, and every identifier in it starts with `SRX`, `ERX`
or `DRX` — for any positive batch size and any partition of the corpus rows
into growth cycles. -/
theorem C10_batch_shape (hdr : Row) (cycles : List (List Row))
    (batchSize : Nat) (hbs : 1 ≤ batchSize) :
    ∀ b ∈ read_runinfo_batches hdr cycles batchSize,
      b ≠ [] ∧ b.length ≤ batchSize ∧ ∀ id ∈ b, isAccessionId id = true := by
  intro b hb
  unfold read_runinfo_batches at hb
  split at hb
  case h_1 srxIdx libIdx heq1 heq2 =>
    rw [List.mem_flatten] at hb
    obtain ⟨bs1, hbs1, hb1⟩ := hb
    rw [List.mem_map] at hbs1
    obtain ⟨cycle, _, rfl⟩ := hbs1
    exact read_cycle_go_sound srxIdx libIdx batchSize hbs cycle []
      (Nat.lt_of_lt_of_le Nat.zero_lt_one hbs) (by simp) b hb1
  case h_2 => simp at hb

/-- C10 witness: one eligible row yields the single batch `["SRX0000001"]`,
which is non-empty, within the cap of 10, and all-accession. -/
theorem C10_batch_shape_witness :
    (["SRX0000001"] : List String) ≠ [] ∧
    (["SRX0000001"] : List String).length ≤ 10 ∧
    ∀ id ∈ (["SRX0000001"] : List String), isAccessionId id = true :=
  C10_batch_shape ["Experiment", "LibraryStrategy"]
    [[["SRX0000001", "RNA-Seq"]]] 10 (by decide) ["SRX0000001"] (by decide)

/-- C8: the identifiers the reader ever yields are exactly the eligible
identifiers of the corpus rows (valid archive prefix, library strategy not in
the exclusion set); in particular a row whose library strategy is excluded is
classified `none` and so never contributes its identifier, even when it is a
syntactically valid accession. -/
theorem C8_exclusion (hdr : Row) (cycles : List (List Row)) (bs : Nat)
    (srxIdx libIdx : Nat)
    (h1 : hdr.findIdx? (fun f => f = "Experiment") = some srxIdx)
    (h2 : hdr.findIdx? (fun f => f = "LibraryStrategy") = some libIdx) :
    ((read_runinfo_batches hdr cycles bs).flatten
      = cycles.flatten.filterMap (eligibleId srxIdx libIdx)) ∧
    (∀ id ∈ (read_runinfo_batches hdr cycles bs).flatten,
      ∃ row ∈ cycles.flatten, eligibleId srxIdx libIdx row = some id) ∧
    (∀ row : Row, pyStrip (row.getD libIdx "") ∈ EXCLUDED_LIBRARY_STRATEGIES →
      eligibleId srxIdx libIdx row = none) := by
  have hmain : (read_runinfo_batches hdr cycles bs).flatten
      = cycles.flatten.filterMap (eligibleId srxIdx libIdx) := by
    unfold read_runinfo_batches
    rw [h1, h2]
    induction cycles with
    | nil => simp
    | cons c cs ih =>
      simp only [List.map_cons, List.flatten_cons, List.flatten_append,
        List.filterMap_append, ih]
      rw [read_cycle_go_flatten]
      simp
  refine ⟨hmain, ?_, ?_⟩
  · intro id hid
    rw [hmain] at hid
    exact List.mem_filterMap.mp hid
  · intro row hex
    unfold eligibleId
    split_ifs with ha
    · rfl
    · dsimp only
      by_cases hb : isAccessionId (pyStrip (row.getD srxIdx "")) = true
      · rw [if_pos hb, if_pos hex]
      · rw [if_neg hb]

/-- C8 witness: with the runinfo header, a `WGA` row is classified ineligible
while an `RNA-Seq` row's identifier is the only one yielded. -/
theorem C8_exclusion_witness :
    ((read_runinfo_batches ["Experiment", "LibraryStrategy"]
        [[["SRX0000001", "WGA"], ["SRX0000002", "RNA-Seq"]]] 10).flatten
      = [["SRX0000001", "WGA"], ["SRX0000002", "RNA-Seq"]].filterMap
          (eligibleId 0 1)) ∧
    (∀ id ∈ (read_runinfo_batches ["Experiment", "LibraryStrategy"]
        [[["SRX0000001", "WGA"], ["SRX0000002", "RNA-Seq"]]] 10).flatten,
      ∃ row ∈ [["SRX0000001", "WGA"], ["SRX0000002", "RNA-Seq"]],
        eligibleId 0 1 row = some id) ∧
    (∀ row : Row, pyStrip (row.getD 1 "") ∈ EXCLUDED_LIBRARY_STRATEGIES →
      eligibleId 0 1 row = none) := by
  have h := C8_exclusion ["Experiment", "LibraryStrategy"]
    [[["SRX0000001", "WGA"], ["SRX0000002", "RNA-Seq"]]] 10 0 1
    (by decide) (by decide)
  simpa using h

/-- Every row the streaming loop writes comes from a yielded identifier that
was not in the resume set and whose fetch succeeded, and the row starts with
that identifier. -/
theorem stream_loop_written_shape (already : List String)
    (fetch : String → Option String) (enrich : String → String → List String) :
    ∀ (ids : List String) (r : Row),
      r ∈ (stream_loop already fetch enrich ids).written →
      ∃ srx, srx ∈ ids ∧ srx ∉ already ∧
        ∃ xml, fetch srx = some xml ∧ r = srx :: enrich srx xml := by
  intro ids
  induction ids with
  | nil => intro r hr; simp [stream_loop] at hr
  | cons i rest ih =>
    intro r hr
    simp only [stream_loop] at hr
    split_ifs at hr with hmem
    · obtain ⟨srx, h1, h2, h3⟩ := ih r hr
      exact ⟨srx, List.mem_cons_of_mem i h1, h2, h3⟩
    · revert hr
      unfold process_single_srx
      cases hf : fetch i with
      | none =>
        intro hr
        obtain ⟨srx, h1, h2, h3⟩ := ih r hr
        exact ⟨srx, List.mem_cons_of_mem i h1, h2, h3⟩
      | some xml =>
        intro hr
        rcases List.mem_cons.mp hr with rfl | hr2
        · exact ⟨i, List.mem_cons_self i rest, hmem, xml, hf, rfl⟩
        · obtain ⟨srx, h1, h2, h3⟩ := ih r hr2
          exact ⟨srx, List.mem_cons_of_mem i h1, h2, h3⟩

/-- The loop's skipped identifiers are exactly the yielded occurrences that
lie in the resume set. -/
theorem stream_loop_skipped (already : List String)
    (fetch : String → Option String) (enrich : String → String → List String) :
    ∀ ids : List String,
      (stream_loop already fetch enrich ids).skipped
        = ids.filter (fun id => decide (id ∈ already)) := by
  intro ids
  induction ids with
  | nil => simp [stream_loop]
  | cons i rest ih =>
    simp only [stream_loop]
    split_ifs with hmem
    · simp [List.filter_cons, hmem, ih]
    · unfold process_single_srx
      cases hf : fetch i <;> simp [List.filter_cons, hmem, ih]

/-- An identifier that is never yielded heads no written row. -/
theorem stream_loop_countP_zero (already : List String)
    (fetch : String → Option String) (enrich : String → String → List String)
    (ids : List String) (id : String) (hid : id ∉ ids) :
    ((stream_loop already fetch enrich ids).written.countP
      (fun r => decide (r.headD "" = id))) = 0 := by
  rw [List.countP_eq_zero]
  intro r hr
  obtain ⟨srx, h1, _, _, _, rfl⟩ :=
    stream_loop_written_shape already fetch enrich ids r hr
  simp only [List.headD_cons, decide_eq_true_eq]
  rintro rfl
  exact hid h1

/-- A yielded identifier outside the resume set with a successful fetch heads
exactly one written row, provided the yielded identifiers are distinct. -/
theorem stream_loop_countP_one (fetch : String → Option String)
    (enrich : String → String → List String) :
    ∀ (ids : List String) (already : List String) (id : String),
      ids.Nodup → id ∈ ids → id ∉ already → (fetch id).isSome →
      ((stream_loop already fetch enrich ids).written.countP
        (fun r => decide (r.headD "" = id))) = 1 := by
  intro ids
  induction ids with
  | nil => intro already id _ h; simp at h
  | cons i rest ih =>
    intro already id hnd hmem hnot hok
    rcases List.mem_cons.mp hmem with rfl | hmem2
    · simp only [stream_loop]
      rw [if_neg hnot]
      unfold process_single_srx
      cases hf : fetch id with
      | none => rw [hf] at hok; simp at hok
      | some xml =>
        simp only [List.countP_cons, List.headD_cons]
        rw [stream_loop_countP_zero already fetch enrich rest id
          (List.nodup_cons.mp hnd).1]
        simp
    · have hne : i ≠ id := by
        rintro rfl
        exact (List.nodup_cons.mp hnd).1 hmem2
      simp only [stream_loop]
      split_ifs with hmemi
      · exact ih already id (List.nodup_cons.mp hnd).2 hmem2 hnot hok
      · unfold process_single_srx
        cases hf : fetch i with
        | none => exact ih already id (List.nodup_cons.mp hnd).2 hmem2 hnot hok
        | some xml =>
          simp only [List.countP_cons, List.headD_cons]
          rw [ih already id (List.nodup_cons.mp hnd).2 hmem2 hnot hok]
          simp [hne]

/-- The resume scan collects exactly the stripped identifier-column values
with a valid archive prefix and no error marker, when every data row reaches
the identifier column. -/
theorem load_loop_mem (idx : Nat) :
    ∀ (rows : List Row), (∀ row ∈ rows, idx < row.length) →
      ∀ id, id ∈ load_loop idx rows ↔
        ∃ row ∈ rows, pyStrip (row.getD idx "") = id ∧
          isAccessionId id = true ∧ isErrorEntry id = false := by
  intro rows
  induction rows with
  | nil => intro _ id; simp [load_loop]
  | cons row rest ih =>
    intro hlen id
    have hrow : idx < row.length := hlen row (List.mem_cons_self row rest)
    have hrest : ∀ r ∈ rest, idx < r.length :=
      fun r hr => hlen r (List.mem_cons_of_mem row hr)
    simp only [load_loop, if_pos hrow]
    constructor
    · intro hmem
      split_ifs at hmem with h1 h2
      · exact ((ih hrest id).mp hmem).imp
          (fun r hr => ⟨List.mem_cons_of_mem row hr.1, hr.2⟩)
      · rcases List.mem_cons.mp hmem with rfl | hmem2
        · exact ⟨row, List.mem_cons_self row rest, rfl, h1.2,
            Bool.eq_false_iff.mpr (by simpa using h2)⟩
        · exact ((ih hrest id).mp hmem2).imp
            (fun r hr => ⟨List.mem_cons_of_mem row hr.1, hr.2⟩)
      · exact ((ih hrest id).mp hmem).imp
          (fun r hr => ⟨List.mem_cons_of_mem row hr.1, hr.2⟩)
    · rintro ⟨r, hr, hid, hacc, herr⟩
      rcases List.mem_cons.mp hr with rfl | hr2
      · subst hid
        rw [if_pos ⟨accession_ne_empty hacc, hacc⟩,
          if_neg (by rw [herr]; exact Bool.false_ne_true)]
        exact List.mem_cons_self _ _
      · have hrec : id ∈ load_loop idx rest :=
          (ih hrest id).mpr ⟨r, hr2, hid, hacc, herr⟩
        split_ifs <;> simp [hrec]

/-- C7: with resume enabled on a well-formed result file (the identifier
column exists and every data row reaches it), the resume set holds exactly
the stripped identifier values with a valid archive prefix and no error
marker; the loop skips exactly the yielded occurrences of those identifiers,
and no written row is headed by one of them. -/
theorem C7_resume_skip (hdr : Row) (rows : List Row) (idx : Nat)
    (fetch : String → Option String) (enrich : String → String → List String)
    (batches : List (List String))
    (hidx : hdr.findIdx? (fun f => f = "sra_experiment_id") = some idx)
    (hlen : ∀ row ∈ rows, idx < row.length) :
    (∀ id, id ∈ load_already_processed_samples (hdr :: rows) ↔
      ∃ row ∈ rows, pyStrip (row.getD idx "") = id ∧
        isAccessionId id = true ∧ isErrorEntry id = false) ∧
    ((stream_process_keyword true (hdr :: rows) fetch enrich batches).2.skipped
      = batches.flatten.filter
          (fun id => decide (id ∈ load_already_processed_samples (hdr :: rows)))) ∧
    (∀ r ∈ (stream_process_keyword true (hdr :: rows) fetch enrich
        batches).2.written,
      r.headD "" ∉ load_already_processed_samples (hdr :: rows)) := by
  have hload : load_already_processed_samples (hdr :: rows)
      = load_loop idx rows := by
    simp [load_already_processed_samples, hidx]
  refine ⟨?_, ?_, ?_⟩
  · intro id
    rw [hload]
    exact load_loop_mem idx rows hlen id
  · simp only [stream_process_keyword, if_pos rfl]
    exact stream_loop_skipped _ fetch enrich batches.flatten
  · intro r hr
    simp only [stream_process_keyword, if_pos rfl] at hr
    obtain ⟨srx, _, hnot, _, _, rfl⟩ :=
      stream_loop_written_shape _ fetch enrich batches.flatten r hr
    simpa using hnot

/-- C7 witness: a result file holding the processed sample `SRX0000001` and
an error entry `SRX0000002_TIMEOUT_ERROR`; re-running skips exactly the
yielded occurrence of `SRX0000001`. -/
theorem C7_resume_skip_witness :
    (∀ id, id ∈ load_already_processed_samples
        [["sra_experiment_id", "species"], ["SRX0000001", "Homo sapiens"],
         ["SRX0000002_TIMEOUT_ERROR", "N/A"]] ↔
      ∃ row ∈ [(["SRX0000001", "Homo sapiens"] : Row),
               ["SRX0000002_TIMEOUT_ERROR", "N/A"]],
        pyStrip (row.getD 0 "") = id ∧ isAccessionId id = true ∧
          isErrorEntry id = false) ∧
    ((stream_process_keyword true
        [["sra_experiment_id", "species"], ["SRX0000001", "Homo sapiens"],
         ["SRX0000002_TIMEOUT_ERROR", "N/A"]]
        (fun _ => some "xml") (fun _ _ => ["N/A"])
        [["SRX0000001", "SRX0000003"]]).2.skipped
      = [["SRX0000001", "SRX0000003"]].flatten.filter
          (fun id => decide (id ∈ load_already_processed_samples
            [["sra_experiment_id", "species"], ["SRX0000001", "Homo sapiens"],
             ["SRX0000002_TIMEOUT_ERROR", "N/A"]]))) ∧
    (∀ r ∈ (stream_process_keyword true
        [["sra_experiment_id", "species"], ["SRX0000001", "Homo sapiens"],
         ["SRX0000002_TIMEOUT_ERROR", "N/A"]]
        (fun _ => some "xml") (fun _ _ => ["N/A"])
        [["SRX0000001", "SRX0000003"]]).2.written,
      r.headD "" ∉ load_already_processed_samples
        [["sra_experiment_id", "species"], ["SRX0000001", "Homo sapiens"],
         ["SRX0000002_TIMEOUT_ERROR", "N/A"]]) :=
  C7_resume_skip ["sra_experiment_id", "species"]
    [["SRX0000001", "Homo sapiens"], ["SRX0000002_TIMEOUT_ERROR", "N/A"]] 0
    (fun _ => some "xml") (fun _ _ => ["N/A"]) [["SRX0000001", "SRX0000003"]]
    (by decide) (by decide)

/-- C1 counterexample: when the XML fetch fails for the yielded identifier
`SRX1000001`, `process_single_srx` returns `None` and the streaming loop
writes nothing for it — the result holds zero records for the identifier, not
the claimed one explicit failure record. -/
theorem C1_counterexample :
    process_single_srx (fun _ => none) (fun _ _ => []) "SRX1000001" = none ∧
    (stream_loop [] (fun _ => none) (fun _ _ => []) ["SRX1000001"]).written
      = [] ∧
    ((stream_loop [] (fun _ => none) (fun _ _ => []) ["SRX1000001"]).written.countP
      (fun r => decide (r.headD "" = "SRX1000001"))) = 0 ∧
    (0 : Nat) ≠ 1 := by
  decide

/-- C1 amended: when fetching the SRA experiment XML fails for an identifier,
`process_single_srx` returns `None` and `stream_process_keyword` writes no
record at all for that identifier — the sample is silently dropped from the
result file (an explicit failure record is emitted only by the other driver,
`SRA_fetch.py`, not by this pipeline). -/
theorem C1_fetch_failure_drops (already : List String)
    (fetch : String → Option String) (enrich : String → String → List String)
    (ids : List String) (id : String) (hfail : fetch id = none) :
    process_single_srx fetch enrich id = none ∧
    ((stream_loop already fetch enrich ids).written.countP
      (fun r => decide (r.headD "" = id))) = 0 := by
  constructor
  · simp [process_single_srx, hfail]
  · rw [List.countP_eq_zero]
    intro r hr
    obtain ⟨srx, _, _, xml, hsome, rfl⟩ :=
      stream_loop_written_shape already fetch enrich ids r hr
    simp only [List.headD_cons, decide_eq_true_eq]
    rintro rfl
    rw [hfail] at hsome
    exact Option.noConfusion hsome

/-- C1 witness: the amended fact at the concrete failing fetch. -/
theorem C1_fetch_failure_drops_witness :
    process_single_srx (fun _ => none) (fun _ _ => ["N/A"]) "SRX2000002"
      = none ∧
    ((stream_loop [] (fun _ => none) (fun _ _ => ["N/A"])
        ["SRX2000002"]).written.countP
      (fun r => decide (r.headD "" = "SRX2000002"))) = 0 :=
  C1_fetch_failure_drops [] (fun _ => none) (fun _ _ => ["N/A"])
    ["SRX2000002"] "SRX2000002" rfl

/-- In a fresh run (empty resume set) an identifier heads exactly one written
row per yield occurrence whose fetch succeeds: the loop writes only under
`if result:` and keeps no within-run dedup set. -/
theorem stream_loop_countP_occ (fetch : String → Option String)
    (enrich : String → String → List String) :
    ∀ (ids : List String) (id : String),
      ((stream_loop [] fetch enrich ids).written.countP
        (fun r => decide (r.headD "" = id)))
        = ids.countP (fun srx => decide (srx = id) && (fetch srx).isSome) := by
  intro ids
  induction ids with
  | nil => intro id; rfl
  | cons srx rest ih =>
    intro id
    simp only [stream_loop]
    rw [if_neg (by simp : ¬ srx ∈ ([] : List String))]
    unfold process_single_srx
    cases hf : fetch srx with
    | none =>
      rw [List.countP_cons, ih id]
      simp [hf]
    | some xml =>
      simp only [List.countP_cons, List.headD_cons]
      rw [ih id]
      simp [hf]

/-- C6 counterexample: the exactly-once property fails in both directions.
Loss: identifier `SRX0000002` is yielded, its fetch fails, and the completed
fresh run's result file holds zero records for it.  Duplication: the corpus
holds each identifier once, but across two growth cycles the reader's resume
cursor counts the header among the processed rows on the second cycle and
re-yields `SRX0000001`, the last data row of the first cycle; with every
fetch succeeding the result file holds two records for it. -/
theorem C6_counterexample :
    (("SRX0000002" ∈ (["SRX0000001", "SRX0000002"] : List String)) ∧
     ((stream_process_keyword false []
         (fun s => if s = "SRX0000002" then none else some "xml")
         (fun _ _ => ["N/A"])
         [["SRX0000001", "SRX0000002"]]).1.countP
       (fun r => decide (r.headD "" = "SRX0000002"))) = 0 ∧
     (0 : Nat) ≠ 1) ∧
    (read_runinfo_batches_trace ["Experiment", "LibraryStrategy"]
        [[["SRX0000001", "RNA-Seq"]],
         [["SRX0000001", "RNA-Seq"], ["SRX0000002", "RNA-Seq"]]] 10
      = [["SRX0000001"], ["SRX0000001", "SRX0000002"]] ∧
     ((stream_process_keyword false [] (fun _ => some "xml")
         (fun _ _ => ["N/A"])
         (read_runinfo_batches_trace ["Experiment", "LibraryStrategy"]
           [[["SRX0000001", "RNA-Seq"]],
            [["SRX0000001", "RNA-Seq"], ["SRX0000002", "RNA-Seq"]]] 10)).1.countP
       (fun r => decide (r.headD "" = "SRX0000001"))) = 2 ∧
     (2 : Nat) ≠ 1) := by
  decide

/-- C6 amended: after a completed fresh run, a yielded identifier appears in
the result file exactly as many times as it has yield occurrences whose fetch
succeeds — occurrences whose fetch fails are absent, and duplicated yields
are each written, the loop holding no within-run dedup.  Yields are not
distinct in general even over a deduplicated corpus: in a multi-cycle run the
resume cursor counts the header among the processed rows from the second
growth cycle on (lines 1615-1617), so the last data row of the first cycle is
re-yielded and its identifier written twice. -/
theorem C6_write_multiplicity :
    (∀ (fetch : String → Option String)
       (enrich : String → String → List String)
       (batches : List (List String)) (id : String),
       isAccessionId id = true →
       ((stream_process_keyword false [] fetch enrich batches).1.countP
         (fun r => decide (r.headD "" = id)))
         = batches.flatten.countP
             (fun srx => decide (srx = id) && (fetch srx).isSome)) ∧
    (read_runinfo_batches_trace ["Experiment", "LibraryStrategy"]
        [[["SRX0000001", "RNA-Seq"]],
         [["SRX0000001", "RNA-Seq"], ["SRX0000002", "RNA-Seq"]]] 10
      = [["SRX0000001"], ["SRX0000001", "SRX0000002"]]) := by
  constructor
  · intro fetch enrich batches id hacc
    have hne : id ≠ "sra_experiment_id" := by
      intro he
      rw [he] at hacc
      exact absurd hacc (by decide)
    have hdef : (stream_process_keyword false [] fetch enrich batches).1
        = [OUTPUT_COLUMNS] ++ (stream_loop [] fetch enrich
            batches.flatten).written := rfl
    rw [hdef, List.countP_append, stream_loop_countP_occ fetch enrich
      batches.flatten id]
    simp [OUTPUT_COLUMNS, Ne.symm hne]
  · decide

/-- C6 witness: on the duplicated yields of the two-cycle trace, with every
fetch succeeding, the re-yielded accession heads two result rows — one per
occurrence. -/
theorem C6_write_multiplicity_witness :
    ((stream_process_keyword false [] (fun _ => some "xml")
        (fun _ _ => ["N/A"])
        [["SRX0000001"], ["SRX0000001", "SRX0000002"]]).1.countP
      (fun r => decide (r.headD "" = "SRX0000001")))
      = ([["SRX0000001"], ["SRX0000001", "SRX0000002"]] :
          List (List String)).flatten.countP
          (fun srx => decide (srx = "SRX0000001") &&
            ((fun _ : String => some "xml") srx).isSome) :=
  C6_write_multiplicity.1 (fun _ => some "xml") (fun _ _ => ["N/A"])
    [["SRX0000001"], ["SRX0000001", "SRX0000002"]] "SRX0000001" (by decide)

/-- C5 counterexample: with the acquisition tooling unavailable, the corpus
file is header-only and the reader yields zero batches — but the streaming
keyword run's result file then contains only the column header and no record
at all, in particular zero (not one) explicit no-identifiers records. -/
theorem C5_counterexample :
    start_streaming_download false (fun _ => []) = [runinfoHeader] ∧
    read_runinfo_batches runinfoHeader [[]] 10 = [] ∧
    (stream_process_keyword false [] (fun _ => none) (fun _ _ => []) []).1
      = [OUTPUT_COLUMNS] ∧
    ((stream_process_keyword false [] (fun _ => none) (fun _ _ => [])
        []).1.countP
      (fun r => strContains (r.headD "") "NO_SRA_IDS_FOUND")) = 0 ∧
    (0 : Nat) ≠ 1 := by
  decide

/-- C5 amended: when the tooling is unavailable the worker writes the
header-only corpus and returns, the reader yields zero batches, and the
streaming driver writes no data record for the keyword (its result file holds
only the header row); the single explicit `NO_SRA_IDS_FOUND_FOR_KEYWORD`
record is produced by the non-streaming driver (`SRA_fetch.py` `main`) when
its identifier list is empty. -/
theorem C5_degraded_mode (download : Unit → List Row)
    (fetch : String → Option String) (enrich : String → String → List String)
    (keyword : String) (proc : String → List (String × String)) (bs : Nat)
    (cycles : List (List Row)) (hc : ∀ c ∈ cycles, c = []) :
    start_streaming_download false download = [runinfoHeader] ∧
    read_runinfo_batches runinfoHeader cycles bs = [] ∧
    (stream_process_keyword false [] fetch enrich []).1 = [OUTPUT_COLUMNS] ∧
    fetch_keyword_records keyword [] proc
      = [placeholder_no_ids_record keyword] ∧
    recLookup (placeholder_no_ids_record keyword) "sra_experiment_id"
      = some "NO_SRA_IDS_FOUND_FOR_KEYWORD" := by
  refine ⟨rfl, ?_, rfl, rfl, ?_⟩
  · have h10 : runinfoHeader.findIdx? (fun f => f = "Experiment")
        = some 10 := by decide
    have h12 : runinfoHeader.findIdx? (fun f => f = "LibraryStrategy")
        = some 12 := by decide
    simp only [read_runinfo_batches, h10, h12]
    rw [List.flatten_eq_nil_iff]
    intro l hl
    rw [List.mem_map] at hl
    obtain ⟨c, hc2, rfl⟩ := hl
    rw [hc c hc2]
    rfl
  · simp [placeholder_no_ids_record, recLookup, FINAL_OUTPUT_COLUMNS]

/-- C5 witness: the degraded scenario at concrete inputs. -/
theorem C5_degraded_mode_witness :
    start_streaming_download false (fun _ => []) = [runinfoHeader] ∧
    read_runinfo_batches runinfoHeader [[]] BATCH_SIZE = [] ∧
    (stream_process_keyword false [] (fun _ => some "xml")
      (fun _ _ => ["N/A"]) []).1 = [OUTPUT_COLUMNS] ∧
    fetch_keyword_records "prostate cancer" [] (fun _ => [])
      = [placeholder_no_ids_record "prostate cancer"] ∧
    recLookup (placeholder_no_ids_record "prostate cancer")
      "sra_experiment_id" = some "NO_SRA_IDS_FOUND_FOR_KEYWORD" :=
  C5_degraded_mode (fun _ => []) (fun _ => some "xml") (fun _ _ => ["N/A"])
    "prostate cancer" (fun _ => []) BATCH_SIZE [[]] (by decide)

/-- C4 counterexample: on a response that is itself a complete JSON object
but contains a fenced block, the source parser returns the fenced block's
content (`"\x7b\x7d"`), while the chain claimed by the specification — direct
whole-response parse first — would return the whole response.  The fenced
extractor therefore runs before, not after, the direct parse. -/
theorem C4_counterexample :
    synthesis_parse_attempt "\x7b\"note\": \"```json \x7b\x7d ```\"\x7d"
      = some "\x7b\x7d" ∧
    claimed_parse_chain "\x7b\"note\": \"```json \x7b\x7d ```\"\x7d"
      = some "\x7b\"note\": \"```json \x7b\x7d ```\"\x7d" ∧
    ("\x7b\x7d" : String) ≠ "\x7b\"note\": \"```json \x7b\x7d ```\"\x7d" := by
  decide

/-- C4 amended: the parser attempts, in order — a fenced-block extraction
first, then the stripped whole response when it is bracket-delimited, then
the leftmost non-greedy (hence smallest, not largest) object/array span; the
single extracted candidate is parsed, and a candidate that fails to parse (or
is not an object for metadata synthesis) ends the attempt with no fall-through
to later extractors.  Leading prose followed by a well-formed flat span still
parses successfully; prose followed by a nested object fails, because the
non-greedy span stops at the first closing brace. -/
theorem C4_parse_chain :
    synthesis_parse_attempt "\x7b\"note\": \"```json \x7b\x7d ```\"\x7d"
      = some "\x7b\x7d" ∧
    synthesis_parse_attempt "\x7b\"species\": \"Homo sapiens\"\x7d"
      = some "\x7b\"species\": \"Homo sapiens\"\x7d" ∧
    synthesis_parse_attempt
        "Sure! Here is the data: \x7b\"species\": \"Homo sapiens\"\x7d"
      = some "\x7b\"species\": \"Homo sapiens\"\x7d" ∧
    synthesis_parse_attempt "x \x7b\"a\": \x7b\"b\": 1\x7d\x7d" = none ∧
    claimed_parse_chain "x \x7b\"a\": \x7b\"b\": 1\x7d\x7d"
      = some "\x7b\"a\": \x7b\"b\": 1\x7d\x7d" := by
  decide

/-- `merge_final_step` appends the row when all its conditions pass. -/
theorem merge_final_step_append (srxIdx : Nat) (libIdx : Option Nat)
    (row : Row) (E : List String) (s : List Row)
    (h1 : srxIdx < row.length)
    (h2 : pyStrip (row.getD srxIdx "") ∉ E ∧
      isAccessionId (pyStrip (row.getD srxIdx "")) = true)
    (hlib : ∀ li, libIdx = some li → li < row.length →
      pyStrip (row.getD li "") ∉ EXCLUDED_LIBRARY_STRATEGIES) :
    merge_final_step srxIdx libIdx ⟨E, s⟩ row
      = ⟨pyStrip (row.getD srxIdx "") :: E, s ++ [row]⟩ := by
  unfold merge_final_step
  dsimp only
  rw [if_pos h1, if_pos h2]
  cases libIdx with
  | none => rfl
  | some li =>
    dsimp only
    by_cases h3 : li < row.length
    case neg => rw [if_neg h3]
    case pos => rw [if_pos h3, if_neg (hlib li rfl h3)]

/-- `merge_final_step` leaves the state unchanged when a condition fails. -/
theorem merge_final_step_skip (srxIdx : Nat) (libIdx : Option Nat)
    (row : Row) (E : List String) (s : List Row)
    (h : ¬ srxIdx < row.length ∨
      ¬ (pyStrip (row.getD srxIdx "") ∉ E ∧
        isAccessionId (pyStrip (row.getD srxIdx "")) = true) ∨
      (∃ li, libIdx = some li ∧ li < row.length ∧
        pyStrip (row.getD li "") ∈ EXCLUDED_LIBRARY_STRATEGIES)) :
    merge_final_step srxIdx libIdx ⟨E, s⟩ row = ⟨E, s⟩ := by
  unfold merge_final_step
  dsimp only
  rcases h with h1 | h2 | ⟨li, hli, h3, h4⟩
  · rw [if_neg h1]
  · by_cases h1 : srxIdx < row.length
    · rw [if_pos h1, if_neg h2]
    · rw [if_neg h1]
  · subst hli
    by_cases h1 : srxIdx < row.length
    case neg => rw [if_neg h1]
    case pos =>
      rw [if_pos h1]
      by_cases h2 : pyStrip (row.getD srxIdx "") ∉ E ∧
          isAccessionId (pyStrip (row.getD srxIdx "")) = true
      case neg => rw [if_neg h2]
      case pos =>
        rw [if_pos h2]
        dsimp only
        rw [if_pos h3, if_pos h4]

/-- `merge_final_new` unfolds at an appended head row. -/
theorem merge_final_new_head_mem (srxIdx : Nat) (libIdx : Option Nat)
    (row : Row) (rest : List Row) (E : List String)
    (h1 : srxIdx < row.length)
    (h2 : pyStrip (row.getD srxIdx "") ∉ E ∧
      isAccessionId (pyStrip (row.getD srxIdx "")) = true)
    (hlib : ∀ li, libIdx = some li → li < row.length →
      pyStrip (row.getD li "") ∉ EXCLUDED_LIBRARY_STRATEGIES) :
    merge_final_new srxIdx libIdx E (row :: rest)
      = row :: merge_final_new srxIdx libIdx
          (pyStrip (row.getD srxIdx "") :: E) rest := by
  conv_lhs => rw [merge_final_new]
  dsimp only
  rw [if_pos h1, if_pos h2]
  cases libIdx with
  | none => rfl
  | some li =>
    dsimp only
    by_cases h3 : li < row.length
    case neg => rw [if_neg h3]
    case pos => rw [if_pos h3, if_neg (hlib li rfl h3)]

/-- `merge_final_new` unfolds at a skipped head row. -/
theorem merge_final_new_head_skip (srxIdx : Nat) (libIdx : Option Nat)
    (row : Row) (rest : List Row) (E : List String)
    (h : ¬ srxIdx < row.length ∨
      ¬ (pyStrip (row.getD srxIdx "") ∉ E ∧
        isAccessionId (pyStrip (row.getD srxIdx "")) = true) ∨
      (∃ li, libIdx = some li ∧ li < row.length ∧
        pyStrip (row.getD li "") ∈ EXCLUDED_LIBRARY_STRATEGIES)) :
    merge_final_new srxIdx libIdx E (row :: rest)
      = merge_final_new srxIdx libIdx E rest := by
  conv_lhs => rw [merge_final_new]
  dsimp only
  rcases h with h1 | h2 | ⟨li, hli, h3, h4⟩
  · rw [if_neg h1]
  · by_cases h1 : srxIdx < row.length
    · rw [if_pos h1, if_neg h2]
    · rw [if_neg h1]
  · subst hli
    by_cases h1 : srxIdx < row.length
    case neg => rw [if_neg h1]
    case pos =>
      rw [if_pos h1]
      by_cases h2 : pyStrip (row.getD srxIdx "") ∉ E ∧
          isAccessionId (pyStrip (row.getD srxIdx "")) = true
      case neg => rw [if_neg h2]
      case pos =>
        rw [if_pos h2]
        dsimp only
        rw [if_pos h3, if_pos h4]

/-- One head-row case split shared by the lemmas below: either the head row
is skipped with the set unchanged, or all append conditions hold. -/
theorem merge_final_head_cases (srxIdx : Nat) (libIdx : Option Nat)
    (row : Row) (E : List String) :
    (¬ srxIdx < row.length ∨
      ¬ (pyStrip (row.getD srxIdx "") ∉ E ∧
        isAccessionId (pyStrip (row.getD srxIdx "")) = true) ∨
      (∃ li, libIdx = some li ∧ li < row.length ∧
        pyStrip (row.getD li "") ∈ EXCLUDED_LIBRARY_STRATEGIES)) ∨
    (srxIdx < row.length ∧
      (pyStrip (row.getD srxIdx "") ∉ E ∧
        isAccessionId (pyStrip (row.getD srxIdx "")) = true) ∧
      (∀ li, libIdx = some li → li < row.length →
        pyStrip (row.getD li "") ∉ EXCLUDED_LIBRARY_STRATEGIES)) := by
  by_cases h1 : srxIdx < row.length
  · by_cases h2 : pyStrip (row.getD srxIdx "") ∉ E ∧
        isAccessionId (pyStrip (row.getD srxIdx "")) = true
    · by_cases h3 : ∃ li, libIdx = some li ∧ li < row.length ∧
          pyStrip (row.getD li "") ∈ EXCLUDED_LIBRARY_STRATEGIES
      · exact Or.inl (Or.inr (Or.inr h3))
      · exact Or.inr ⟨h1, h2, fun li hli hlt hex => h3 ⟨li, hli, hlt, hex⟩⟩
    · exact Or.inl (Or.inr (Or.inl h2))
  · exact Or.inl (Or.inl h1)

/-- The final-merge fold appends exactly the rows of `merge_final_new`. -/
theorem merge_final_fold_samples (srxIdx : Nat) (libIdx : Option Nat) :
    ∀ (rows : List Row) (E : List String) (s : List Row),
      (rows.foldl (merge_final_step srxIdx libIdx) ⟨E, s⟩).samples
        = s ++ merge_final_new srxIdx libIdx E rows := by
  intro rows
  induction rows with
  | nil => intro E s; simp [merge_final_new]
  | cons row rest ih =>
    intro E s
    rw [List.foldl_cons]
    rcases merge_final_head_cases srxIdx libIdx row E with hskip | ⟨h1, h2, hlib⟩
    · rw [merge_final_step_skip srxIdx libIdx row E s hskip,
        merge_final_new_head_skip srxIdx libIdx row rest E hskip, ih]
    · rw [merge_final_step_append srxIdx libIdx row E s h1 h2 hlib,
        merge_final_new_head_mem srxIdx libIdx row rest E h1 h2 hlib, ih]
      simp

/-- Every row the final merge appends is long enough to carry its identifier
and that identifier is a valid accession. -/
theorem merge_final_new_conds (srxIdx : Nat) (libIdx : Option Nat) :
    ∀ (rows : List Row) (E : List String) (r : Row),
      r ∈ merge_final_new srxIdx libIdx E rows →
      srxIdx < r.length ∧ isAccessionId (pyStrip (r.getD srxIdx "")) = true := by
  intro rows
  induction rows with
  | nil => intro E r hr; simp [merge_final_new] at hr
  | cons row rest ih =>
    intro E r hr
    rcases merge_final_head_cases srxIdx libIdx row E with hskip | ⟨h1, h2, hlib⟩
    · rw [merge_final_new_head_skip srxIdx libIdx row rest E hskip] at hr
      exact ih _ r hr
    · rw [merge_final_new_head_mem srxIdx libIdx row rest E h1 h2 hlib] at hr
      rcases List.mem_cons.mp hr with rfl | hr2
      · exact ⟨h1, h2.2⟩
      · exact ih _ r hr2

/-- If a dedup set already contains every identifier the scan from a smaller
set would append, the scan from the larger set appends nothing. -/
theorem merge_final_new_noop (srxIdx : Nat) (libIdx : Option Nat) :
    ∀ (rows : List Row) (E1 E2 : List String),
      (∀ e ∈ E1, e ∈ E2) →
      (∀ r ∈ merge_final_new srxIdx libIdx E1 rows,
        pyStrip (r.getD srxIdx "") ∈ E2) →
      merge_final_new srxIdx libIdx E2 rows = [] := by
  intro rows
  induction rows with
  | nil => intro E1 E2 _ _; rfl
  | cons row rest ih =>
    intro E1 E2 hsub hids
    rcases merge_final_head_cases srxIdx libIdx row E1 with hskip | ⟨h1, h2, hlib⟩
    · have hskip2 : ¬ srxIdx < row.length ∨
          ¬ (pyStrip (row.getD srxIdx "") ∉ E2 ∧
            isAccessionId (pyStrip (row.getD srxIdx "")) = true) ∨
          (∃ li, libIdx = some li ∧ li < row.length ∧
            pyStrip (row.getD li "") ∈ EXCLUDED_LIBRARY_STRATEGIES) := by
        rcases hskip with ha | hb | hc
        · exact Or.inl ha
        · refine Or.inr (Or.inl ?_)
          intro hcon
          apply hb
          refine ⟨fun hin => hcon.1 (hsub _ hin), hcon.2⟩
        · exact Or.inr (Or.inr hc)
      rw [merge_final_new_head_skip srxIdx libIdx row rest E2 hskip2]
      refine ih E1 E2 hsub ?_
      intro r hr
      apply hids
      rw [merge_final_new_head_skip srxIdx libIdx row rest E1 hskip]
      exact hr
    · have hrun1 := merge_final_new_head_mem srxIdx libIdx row rest E1
        h1 h2 hlib
      have hsrx : pyStrip (row.getD srxIdx "") ∈ E2 := by
        apply hids row
        rw [hrun1]
        exact List.mem_cons_self _ _
      rw [merge_final_new_head_skip srxIdx libIdx row rest E2
        (Or.inr (Or.inl (fun hc => hc.1 hsrx)))]
      refine ih (pyStrip (row.getD srxIdx "") :: E1) E2 ?_ ?_
      · intro e he
        rcases List.mem_cons.mp he with rfl | he2
        · exact hsrx
        · exact hsub e he2
      · intro r hr
        apply hids
        rw [hrun1]
        exact List.mem_cons_of_mem _ hr

/-- A blank or XML line, or one with at most ten columns, leaves the
incremental-merge accumulator unchanged. -/
theorem merge_incr_step_line_skip (acc : IncAcc) (line : String)
    (h : ¬ ((pyStrip line ≠ "" ∧ ¬ pyStartsWith line "<?xml" ∧
        ¬ pyStartsWith line "<eFetchResult>") ∧
      10 < (parseCsvLine line).length)) :
    merge_incr_step acc line = acc := by
  unfold merge_incr_step
  dsimp only
  by_cases hG : pyStrip line ≠ "" ∧ ¬ pyStartsWith line "<?xml" ∧
      ¬ pyStartsWith line "<eFetchResult>"
  case neg => rw [if_neg hG]
  case pos => rw [if_pos hG, if_neg (fun hlen => h ⟨hG, hlen⟩)]

/-- Without a header yet, an `Experiment`-bearing wide row becomes the
header. -/
theorem merge_incr_step_detect (E : List String) (s : List Row)
    (line : String)
    (hG : pyStrip line ≠ "" ∧ ¬ pyStartsWith line "<?xml" ∧
      ¬ pyStartsWith line "<eFetchResult>")
    (hlen : 10 < (parseCsvLine line).length)
    (hmem : "Experiment" ∈ parseCsvLine line) :
    merge_incr_step ⟨none, E, s⟩ line = ⟨some (parseCsvLine line), E, s⟩ := by
  unfold merge_incr_step
  dsimp only
  rw [if_pos hG, if_pos hlen, if_pos hmem]

/-- Without a header yet, a wide row without `Experiment` is dropped. -/
theorem merge_incr_step_nodetect (E : List String) (s : List Row)
    (line : String)
    (hG : pyStrip line ≠ "" ∧ ¬ pyStartsWith line "<?xml" ∧
      ¬ pyStartsWith line "<eFetchResult>")
    (hlen : 10 < (parseCsvLine line).length)
    (hmem : "Experiment" ∉ parseCsvLine line) :
    merge_incr_step ⟨none, E, s⟩ line = ⟨none, E, s⟩ := by
  unfold merge_incr_step
  dsimp only
  rw [if_pos hG, if_pos hlen, if_neg hmem]

/-- With a header lacking an `Experiment` index, rows are never appended. -/
theorem merge_incr_step_noidx (h : Row) (E : List String) (s : List Row)
    (line : String)
    (hG : pyStrip line ≠ "" ∧ ¬ pyStartsWith line "<?xml" ∧
      ¬ pyStartsWith line "<eFetchResult>")
    (hlen : 10 < (parseCsvLine line).length)
    (hidx : h.findIdx? (fun f => f = "Experiment") = none) :
    merge_incr_step ⟨some h, E, s⟩ line = ⟨some h, E, s⟩ := by
  unfold merge_incr_step
  dsimp only
  rw [if_pos hG, if_pos hlen, hidx]

/-- With a header, a row that is short at the identifier column or whose
identifier is stale or invalid is skipped. -/
theorem merge_incr_step_some_skip (h : Row) (idx : Nat) (E : List String)
    (s : List Row) (line : String)
    (hG : pyStrip line ≠ "" ∧ ¬ pyStartsWith line "<?xml" ∧
      ¬ pyStartsWith line "<eFetchResult>")
    (hlen : 10 < (parseCsvLine line).length)
    (hidx : h.findIdx? (fun f => f = "Experiment") = some idx)
    (hc : ¬ idx < (parseCsvLine line).length ∨
      ¬ (pyStrip ((parseCsvLine line).getD idx "") ∉ E ∧
        isAccessionId (pyStrip ((parseCsvLine line).getD idx "")) = true)) :
    merge_incr_step ⟨some h, E, s⟩ line = ⟨some h, E, s⟩ := by
  unfold merge_incr_step
  dsimp only
  rw [if_pos hG, if_pos hlen, hidx]
  dsimp only
  rcases hc with hc1 | hc2
  · rw [if_neg hc1]
  · by_cases hc1 : idx < (parseCsvLine line).length
    · rw [if_pos hc1, if_neg hc2]
    · rw [if_neg hc1]

/-- With a header, a wide row bearing a fresh valid identifier is appended. -/
theorem merge_incr_step_append (h : Row) (idx : Nat) (E : List String)
    (s : List Row) (line : String)
    (hG : pyStrip line ≠ "" ∧ ¬ pyStartsWith line "<?xml" ∧
      ¬ pyStartsWith line "<eFetchResult>")
    (hlen : 10 < (parseCsvLine line).length)
    (hidx : h.findIdx? (fun f => f = "Experiment") = some idx)
    (hlt : idx < (parseCsvLine line).length)
    (hc : pyStrip ((parseCsvLine line).getD idx "") ∉ E ∧
      isAccessionId (pyStrip ((parseCsvLine line).getD idx "")) = true) :
    merge_incr_step ⟨some h, E, s⟩ line
      = ⟨some h, pyStrip ((parseCsvLine line).getD idx "") :: E,
          s ++ [parseCsvLine line]⟩ := by
  unfold merge_incr_step
  dsimp only
  rw [if_pos hG, if_pos hlen, hidx]
  dsimp only
  rw [if_pos hlt, if_pos hc]

/-- Head rewrites for `merge_incr_new`, mirroring the step lemmas. -/
theorem merge_incr_new_line_skip (hr : Option Row) (E : List String)
    (line : String) (rest : List String)
    (h : ¬ ((pyStrip line ≠ "" ∧ ¬ pyStartsWith line "<?xml" ∧
        ¬ pyStartsWith line "<eFetchResult>") ∧
      10 < (parseCsvLine line).length)) :
    merge_incr_new hr E (line :: rest) = merge_incr_new hr E rest := by
  conv_lhs => rw [merge_incr_new]
  dsimp only
  by_cases hG : pyStrip line ≠ "" ∧ ¬ pyStartsWith line "<?xml" ∧
      ¬ pyStartsWith line "<eFetchResult>"
  case neg => rw [if_neg hG]
  case pos => rw [if_pos hG, if_neg (fun hlen => h ⟨hG, hlen⟩)]

/-- Header detection in `merge_incr_new`. -/
theorem merge_incr_new_detect (E : List String) (line : String)
    (rest : List String)
    (hG : pyStrip line ≠ "" ∧ ¬ pyStartsWith line "<?xml" ∧
      ¬ pyStartsWith line "<eFetchResult>")
    (hlen : 10 < (parseCsvLine line).length)
    (hmem : "Experiment" ∈ parseCsvLine line) :
    merge_incr_new none E (line :: rest)
      = merge_incr_new (some (parseCsvLine line)) E rest := by
  conv_lhs => rw [merge_incr_new]
  dsimp only
  rw [if_pos hG, if_pos hlen, if_pos hmem]

/-- A wide header-less row without `Experiment` contributes nothing. -/
theorem merge_incr_new_nodetect (E : List String) (line : String)
    (rest : List String)
    (hG : pyStrip line ≠ "" ∧ ¬ pyStartsWith line "<?xml" ∧
      ¬ pyStartsWith line "<eFetchResult>")
    (hlen : 10 < (parseCsvLine line).length)
    (hmem : "Experiment" ∉ parseCsvLine line) :
    merge_incr_new none E (line :: rest) = merge_incr_new none E rest := by
  conv_lhs => rw [merge_incr_new]
  dsimp only
  rw [if_pos hG, if_pos hlen, if_neg hmem]

/-- No `Experiment` index in the header: nothing is appended. -/
theorem merge_incr_new_noidx (h : Row) (E : List String) (line : String)
    (rest : List String)
    (hG : pyStrip line ≠ "" ∧ ¬ pyStartsWith line "<?xml" ∧
      ¬ pyStartsWith line "<eFetchResult>")
    (hlen : 10 < (parseCsvLine line).length)
    (hidx : h.findIdx? (fun f => f = "Experiment") = none) :
    merge_incr_new (some h) E (line :: rest)
      = merge_incr_new (some h) E rest := by
  conv_lhs => rw [merge_incr_new]
  dsimp only
  rw [if_pos hG, if_pos hlen, hidx]

/-- Skipped data row with a header in `merge_incr_new`. -/
theorem merge_incr_new_some_skip (h : Row) (idx : Nat) (E : List String)
    (line : String) (rest : List String)
    (hG : pyStrip line ≠ "" ∧ ¬ pyStartsWith line "<?xml" ∧
      ¬ pyStartsWith line "<eFetchResult>")
    (hlen : 10 < (parseCsvLine line).length)
    (hidx : h.findIdx? (fun f => f = "Experiment") = some idx)
    (hc : ¬ idx < (parseCsvLine line).length ∨
      ¬ (pyStrip ((parseCsvLine line).getD idx "") ∉ E ∧
        isAccessionId (pyStrip ((parseCsvLine line).getD idx "")) = true)) :
    merge_incr_new (some h) E (line :: rest)
      = merge_incr_new (some h) E rest := by
  conv_lhs => rw [merge_incr_new]
  dsimp only
  rw [if_pos hG, if_pos hlen, hidx]
  dsimp only
  rcases hc with hc1 | hc2
  · rw [if_neg hc1]
  · by_cases hc1 : idx < (parseCsvLine line).length
    · rw [if_pos hc1, if_neg hc2]
    · rw [if_neg hc1]

/-- Appended data row with a header in `merge_incr_new`. -/
theorem merge_incr_new_some_append (h : Row) (idx : Nat) (E : List String)
    (line : String) (rest : List String)
    (hG : pyStrip line ≠ "" ∧ ¬ pyStartsWith line "<?xml" ∧
      ¬ pyStartsWith line "<eFetchResult>")
    (hlen : 10 < (parseCsvLine line).length)
    (hidx : h.findIdx? (fun f => f = "Experiment") = some idx)
    (hlt : idx < (parseCsvLine line).length)
    (hc : pyStrip ((parseCsvLine line).getD idx "") ∉ E ∧
      isAccessionId (pyStrip ((parseCsvLine line).getD idx "")) = true) :
    merge_incr_new (some h) E (line :: rest)
      = parseCsvLine line :: merge_incr_new (some h)
          (pyStrip ((parseCsvLine line).getD idx "") :: E) rest := by
  conv_lhs => rw [merge_incr_new]
  dsimp only
  rw [if_pos hG, if_pos hlen, hidx]
  dsimp only
  rw [if_pos hlt, if_pos hc]

/-- A header, once set, never changes. -/
theorem merge_incr_hdr_some (h : Row) :
    ∀ lines : List String, merge_incr_hdr (some h) lines = some h := by
  intro lines
  induction lines with
  | nil => rfl
  | cons line rest ih =>
    conv_lhs => rw [merge_incr_hdr]
    dsimp only
    by_cases hG : pyStrip line ≠ "" ∧ ¬ pyStartsWith line "<?xml" ∧
        ¬ pyStartsWith line "<eFetchResult>"
    case neg => rw [if_neg hG]; exact ih
    case pos =>
      rw [if_pos hG]
      by_cases hlen : 10 < (parseCsvLine line).length
      · rw [if_pos hlen]; exact ih
      · rw [if_neg hlen]; exact ih

/-- Head rewrites for `merge_incr_hdr`. -/
theorem merge_incr_hdr_line_skip (hr : Option Row) (line : String)
    (rest : List String)
    (h : ¬ ((pyStrip line ≠ "" ∧ ¬ pyStartsWith line "<?xml" ∧
        ¬ pyStartsWith line "<eFetchResult>") ∧
      10 < (parseCsvLine line).length)) :
    merge_incr_hdr hr (line :: rest) = merge_incr_hdr hr rest := by
  conv_lhs => rw [merge_incr_hdr]
  dsimp only
  by_cases hG : pyStrip line ≠ "" ∧ ¬ pyStartsWith line "<?xml" ∧
      ¬ pyStartsWith line "<eFetchResult>"
  case neg => rw [if_neg hG]
  case pos =>
    rw [if_pos hG, if_neg (fun hlen => h ⟨hG, hlen⟩)]

/-- Header detection in `merge_incr_hdr`. -/
theorem merge_incr_hdr_detect (line : String) (rest : List String)
    (hG : pyStrip line ≠ "" ∧ ¬ pyStartsWith line "<?xml" ∧
      ¬ pyStartsWith line "<eFetchResult>")
    (hlen : 10 < (parseCsvLine line).length)
    (hmem : "Experiment" ∈ parseCsvLine line) :
    merge_incr_hdr none (line :: rest)
      = merge_incr_hdr (some (parseCsvLine line)) rest := by
  conv_lhs => rw [merge_incr_hdr]
  dsimp only
  rw [if_pos hG, if_pos hlen, if_pos hmem]

/-- No detection on a wide `Experiment`-less row in `merge_incr_hdr`. -/
theorem merge_incr_hdr_nodetect (line : String) (rest : List String)
    (hG : pyStrip line ≠ "" ∧ ¬ pyStartsWith line "<?xml" ∧
      ¬ pyStartsWith line "<eFetchResult>")
    (hlen : 10 < (parseCsvLine line).length)
    (hmem : "Experiment" ∉ parseCsvLine line) :
    merge_incr_hdr none (line :: rest) = merge_incr_hdr none rest := by
  conv_lhs => rw [merge_incr_hdr]
  dsimp only
  rw [if_pos hG, if_pos hlen, if_neg hmem]

/-- Processed line with an existing header in `merge_incr_hdr`. -/
theorem merge_incr_hdr_head_some (h : Row) (line : String)
    (rest : List String)
    (hG : pyStrip line ≠ "" ∧ ¬ pyStartsWith line "<?xml" ∧
      ¬ pyStartsWith line "<eFetchResult>")
    (hlen : 10 < (parseCsvLine line).length) :
    merge_incr_hdr (some h) (line :: rest) = merge_incr_hdr (some h) rest := by
  conv_lhs => rw [merge_incr_hdr]
  dsimp only
  rw [if_pos hG, if_pos hlen]

/-- The incremental fold collects exactly the rows of `merge_incr_new`. -/
theorem merge_incr_fold_samples :
    ∀ (lines : List String) (hr : Option Row) (E : List String) (s : List Row),
      (lines.foldl merge_incr_step ⟨hr, E, s⟩).samples
        = s ++ merge_incr_new hr E lines := by
  intro lines
  induction lines with
  | nil => intro hr E s; simp [merge_incr_new]
  | cons line rest ih =>
    intro hr E s
    rw [List.foldl_cons]
    by_cases hP : (pyStrip line ≠ "" ∧ ¬ pyStartsWith line "<?xml" ∧
        ¬ pyStartsWith line "<eFetchResult>") ∧
      10 < (parseCsvLine line).length
    case neg =>
      rw [merge_incr_step_line_skip ⟨hr, E, s⟩ line hP,
        merge_incr_new_line_skip hr E line rest hP, ih]
    case pos =>
      obtain ⟨hG, hlen⟩ := hP
      cases hr with
      | none =>
        by_cases hmem : "Experiment" ∈ parseCsvLine line
        · rw [merge_incr_step_detect E s line hG hlen hmem,
            merge_incr_new_detect E line rest hG hlen hmem, ih]
        · rw [merge_incr_step_nodetect E s line hG hlen hmem,
            merge_incr_new_nodetect E line rest hG hlen hmem, ih]
      | some h =>
        cases hidx : h.findIdx? (fun f => f = "Experiment") with
        | none =>
          rw [merge_incr_step_noidx h E s line hG hlen hidx,
            merge_incr_new_noidx h E line rest hG hlen hidx, ih]
        | some idx =>
          by_cases hlt : idx < (parseCsvLine line).length
          case neg =>
            rw [merge_incr_step_some_skip h idx E s line hG hlen hidx
                (Or.inl hlt),
              merge_incr_new_some_skip h idx E line rest hG hlen hidx
                (Or.inl hlt), ih]
          case pos =>
            by_cases hc : pyStrip ((parseCsvLine line).getD idx "") ∉ E ∧
                isAccessionId (pyStrip ((parseCsvLine line).getD idx ""))
                  = true
            case pos =>
              rw [merge_incr_step_append h idx E s line hG hlen hidx hlt hc,
                merge_incr_new_some_append h idx E line rest hG hlen hidx
                  hlt hc, ih]
              simp
            case neg =>
              rw [merge_incr_step_some_skip h idx E s line hG hlen hidx
                  (Or.inr hc),
                merge_incr_new_some_skip h idx E line rest hG hlen hidx
                  (Or.inr hc), ih]

/-- The incremental fold's header is `merge_incr_hdr`. -/
theorem merge_incr_fold_header :
    ∀ (lines : List String) (hr : Option Row) (E : List String) (s : List Row),
      (lines.foldl merge_incr_step ⟨hr, E, s⟩).header_row
        = merge_incr_hdr hr lines := by
  intro lines
  induction lines with
  | nil => intro hr E s; rfl
  | cons line rest ih =>
    intro hr E s
    rw [List.foldl_cons]
    by_cases hP : (pyStrip line ≠ "" ∧ ¬ pyStartsWith line "<?xml" ∧
        ¬ pyStartsWith line "<eFetchResult>") ∧
      10 < (parseCsvLine line).length
    case neg =>
      rw [merge_incr_step_line_skip ⟨hr, E, s⟩ line hP,
        merge_incr_hdr_line_skip hr line rest hP, ih]
    case pos =>
      obtain ⟨hG, hlen⟩ := hP
      cases hr with
      | none =>
        by_cases hmem : "Experiment" ∈ parseCsvLine line
        · rw [merge_incr_step_detect E s line hG hlen hmem,
            merge_incr_hdr_detect line rest hG hlen hmem, ih]
        · rw [merge_incr_step_nodetect E s line hG hlen hmem,
            merge_incr_hdr_nodetect line rest hG hlen hmem, ih]
      | some h =>
        cases hidx : h.findIdx? (fun f => f = "Experiment") with
        | none =>
          rw [merge_incr_step_noidx h E s line hG hlen hidx,
            merge_incr_hdr_head_some h line rest hG hlen, ih]
        | some idx =>
          by_cases hlt : idx < (parseCsvLine line).length
          case neg =>
            rw [merge_incr_step_some_skip h idx E s line hG hlen hidx
                (Or.inl hlt),
              merge_incr_hdr_head_some h line rest hG hlen, ih]
          case pos =>
            by_cases hc : pyStrip ((parseCsvLine line).getD idx "") ∉ E ∧
                isAccessionId (pyStrip ((parseCsvLine line).getD idx ""))
                  = true
            case pos =>
              rw [merge_incr_step_append h idx E s line hG hlen hidx hlt hc,
                merge_incr_hdr_head_some h line rest hG hlen, ih]
            case neg =>
              rw [merge_incr_step_some_skip h idx E s line hG hlen hidx
                  (Or.inr hc),
                merge_incr_hdr_head_some h line rest hG hlen, ih]

/-- If the scan never finds a header, it appends nothing. -/
theorem merge_incr_new_no_header :
    ∀ (lines : List String) (E : List String),
      merge_incr_hdr none lines = none → merge_incr_new none E lines = [] := by
  intro lines
  induction lines with
  | nil => intro E _; rfl
  | cons line rest ih =>
    intro E hh
    by_cases hP : (pyStrip line ≠ "" ∧ ¬ pyStartsWith line "<?xml" ∧
        ¬ pyStartsWith line "<eFetchResult>") ∧
      10 < (parseCsvLine line).length
    case neg =>
      rw [merge_incr_hdr_line_skip none line rest hP] at hh
      rw [merge_incr_new_line_skip none E line rest hP]
      exact ih E hh
    case pos =>
      obtain ⟨hG, hlen⟩ := hP
      by_cases hmem : "Experiment" ∈ parseCsvLine line
      · exfalso
        rw [merge_incr_hdr_detect line rest hG hlen hmem,
          merge_incr_hdr_some] at hh
        exact Option.noConfusion hh
      · rw [merge_incr_hdr_nodetect line rest hG hlen hmem] at hh
        rw [merge_incr_new_nodetect E line rest hG hlen hmem]
        exact ih E hh

/-- If the detected header has no `Experiment` column index, the scan appends
nothing. -/
theorem merge_incr_new_noidx_all :
    ∀ (lines : List String) (hr : Option Row) (E : List String) (hdr : Row),
      merge_incr_hdr hr lines = some hdr →
      hdr.findIdx? (fun f => f = "Experiment") = none →
      (hr = none ∨ hr = some hdr) →
      merge_incr_new hr E lines = [] := by
  intro lines
  induction lines with
  | nil =>
    intro hr E hdr hh hfind hd
    rcases hd with rfl | rfl <;> rfl
  | cons line rest ih =>
    intro hr E hdr hh hfind hd
    by_cases hP : (pyStrip line ≠ "" ∧ ¬ pyStartsWith line "<?xml" ∧
        ¬ pyStartsWith line "<eFetchResult>") ∧
      10 < (parseCsvLine line).length
    case neg =>
      rw [merge_incr_hdr_line_skip hr line rest hP] at hh
      rw [merge_incr_new_line_skip hr E line rest hP]
      exact ih hr E hdr hh hfind hd
    case pos =>
      obtain ⟨hG, hlen⟩ := hP
      rcases hd with rfl | rfl
      · by_cases hmem : "Experiment" ∈ parseCsvLine line
        · have hh2 := hh
          rw [merge_incr_hdr_detect line rest hG hlen hmem,
            merge_incr_hdr_some] at hh2
          have hrow : parseCsvLine line = hdr := Option.some.inj hh2
          rw [merge_incr_new_detect E line rest hG hlen hmem, hrow]
          refine ih (some hdr) E hdr ?_ hfind (Or.inr rfl)
          rw [merge_incr_hdr_some]
        · rw [merge_incr_hdr_nodetect line rest hG hlen hmem] at hh
          rw [merge_incr_new_nodetect E line rest hG hlen hmem]
          exact ih none E hdr hh hfind (Or.inl rfl)
      · rw [merge_incr_new_noidx hdr E line rest hG hlen hfind]
        refine ih (some hdr) E hdr ?_ hfind (Or.inr rfl)
        rw [merge_incr_hdr_some]

/-- Every row the incremental scan appends reaches the identifier column of
the detected header and carries a valid accession there. -/
theorem merge_incr_new_conds :
    ∀ (lines : List String) (hr : Option Row) (E : List String) (hdr : Row)
      (idx : Nat),
      merge_incr_hdr hr lines = some hdr →
      hdr.findIdx? (fun f => f = "Experiment") = some idx →
      (hr = none ∨ hr = some hdr) →
      ∀ r ∈ merge_incr_new hr E lines,
        idx < r.length ∧ isAccessionId (pyStrip (r.getD idx "")) = true := by
  intro lines
  induction lines with
  | nil =>
    intro hr E hdr idx hh hfind hd r hr2
    rcases hd with rfl | rfl <;> simp [merge_incr_new] at hr2
  | cons line rest ih =>
    intro hr E hdr idx hh hfind hd r hr2
    by_cases hP : (pyStrip line ≠ "" ∧ ¬ pyStartsWith line "<?xml" ∧
        ¬ pyStartsWith line "<eFetchResult>") ∧
      10 < (parseCsvLine line).length
    case neg =>
      rw [merge_incr_hdr_line_skip hr line rest hP] at hh
      rw [merge_incr_new_line_skip hr E line rest hP] at hr2
      exact ih hr E hdr idx hh hfind hd r hr2
    case pos =>
      obtain ⟨hG, hlen⟩ := hP
      rcases hd with rfl | rfl
      · by_cases hmem : "Experiment" ∈ parseCsvLine line
        · have hh2 := hh
          rw [merge_incr_hdr_detect line rest hG hlen hmem,
            merge_incr_hdr_some] at hh2
          have hrow : parseCsvLine line = hdr := Option.some.inj hh2
          rw [merge_incr_new_detect E line rest hG hlen hmem, hrow] at hr2
          refine ih (some hdr) E hdr idx ?_ hfind (Or.inr rfl) r hr2
          rw [merge_incr_hdr_some]
        · rw [merge_incr_hdr_nodetect line rest hG hlen hmem] at hh
          rw [merge_incr_new_nodetect E line rest hG hlen hmem] at hr2
          exact ih none E hdr idx hh hfind (Or.inl rfl) r hr2
      · have hh2 : merge_incr_hdr (some hdr) rest = some hdr := by
          rw [merge_incr_hdr_some]
        by_cases hlt : idx < (parseCsvLine line).length
        case neg =>
          rw [merge_incr_new_some_skip hdr idx E line rest hG hlen hfind
            (Or.inl hlt)] at hr2
          exact ih (some hdr) E hdr idx hh2 hfind (Or.inr rfl) r hr2
        case pos =>
          by_cases hc : pyStrip ((parseCsvLine line).getD idx "") ∉ E ∧
              isAccessionId (pyStrip ((parseCsvLine line).getD idx ""))
                = true
          case pos =>
            rw [merge_incr_new_some_append hdr idx E line rest hG hlen hfind
              hlt hc] at hr2
            rcases List.mem_cons.mp hr2 with rfl | hr3
            · exact ⟨hlt, hc.2⟩
            · exact ih (some hdr) _ hdr idx hh2 hfind (Or.inr rfl) r hr3
          case neg =>
            rw [merge_incr_new_some_skip hdr idx E line rest hG hlen hfind
              (Or.inr hc)] at hr2
            exact ih (some hdr) E hdr idx hh2 hfind (Or.inr rfl) r hr2

/-- If a dedup set already contains every identifier the incremental scan
from a smaller set would append, the scan from the larger set appends
nothing. -/
theorem merge_incr_new_noop :
    ∀ (lines : List String) (hr : Option Row) (E1 E2 : List String)
      (hdr : Row) (idx : Nat),
      merge_incr_hdr hr lines = some hdr →
      hdr.findIdx? (fun f => f = "Experiment") = some idx →
      (hr = none ∨ hr = some hdr) →
      (∀ e ∈ E1, e ∈ E2) →
      (∀ r ∈ merge_incr_new hr E1 lines, pyStrip (r.getD idx "") ∈ E2) →
      merge_incr_new hr E2 lines = [] := by
  intro lines
  induction lines with
  | nil =>
    intro hr E1 E2 hdr idx hh hfind hd _ _
    rcases hd with rfl | rfl <;> rfl
  | cons line rest ih =>
    intro hr E1 E2 hdr idx hh hfind hd hsub hids
    by_cases hP : (pyStrip line ≠ "" ∧ ¬ pyStartsWith line "<?xml" ∧
        ¬ pyStartsWith line "<eFetchResult>") ∧
      10 < (parseCsvLine line).length
    case neg =>
      rw [merge_incr_hdr_line_skip hr line rest hP] at hh
      rw [merge_incr_new_line_skip hr E2 line rest hP]
      refine ih hr E1 E2 hdr idx hh hfind hd hsub ?_
      intro r hr2
      apply hids
      rw [merge_incr_new_line_skip hr E1 line rest hP]
      exact hr2
    case pos =>
      obtain ⟨hG, hlen⟩ := hP
      rcases hd with rfl | rfl
      · by_cases hmem : "Experiment" ∈ parseCsvLine line
        · have hh2 := hh
          rw [merge_incr_hdr_detect line rest hG hlen hmem,
            merge_incr_hdr_some] at hh2
          have hrow : parseCsvLine line = hdr := Option.some.inj hh2
          rw [merge_incr_new_detect E2 line rest hG hlen hmem, hrow]
          refine ih (some hdr) E1 E2 hdr idx ?_ hfind (Or.inr rfl) hsub ?_
          · rw [merge_incr_hdr_some]
          · intro r hr2
            apply hids
            rw [merge_incr_new_detect E1 line rest hG hlen hmem, hrow]
            exact hr2
        · rw [merge_incr_hdr_nodetect line rest hG hlen hmem] at hh
          rw [merge_incr_new_nodetect E2 line rest hG hlen hmem]
          refine ih none E1 E2 hdr idx hh hfind (Or.inl rfl) hsub ?_
          intro r hr2
          apply hids
          rw [merge_incr_new_nodetect E1 line rest hG hlen hmem]
          exact hr2
      · have hh2 : merge_incr_hdr (some hdr) rest = some hdr := by
          rw [merge_incr_hdr_some]
        by_cases hlt : idx < (parseCsvLine line).length
        case neg =>
          rw [merge_incr_new_some_skip hdr idx E2 line rest hG hlen hfind
            (Or.inl hlt)]
          refine ih (some hdr) E1 E2 hdr idx hh2 hfind (Or.inr rfl) hsub ?_
          intro r hr2
          apply hids
          rw [merge_incr_new_some_skip hdr idx E1 line rest hG hlen hfind
            (Or.inl hlt)]
          exact hr2
        case pos =>
          by_cases hacc : isAccessionId
              (pyStrip ((parseCsvLine line).getD idx "")) = true
          case neg =>
            have hc : ∀ E : List String,
                ¬ (pyStrip ((parseCsvLine line).getD idx "") ∉ E ∧
                  isAccessionId (pyStrip ((parseCsvLine line).getD idx ""))
                    = true) := fun E hcon => hacc hcon.2
            rw [merge_incr_new_some_skip hdr idx E2 line rest hG hlen hfind
              (Or.inr (hc E2))]
            refine ih (some hdr) E1 E2 hdr idx hh2 hfind (Or.inr rfl) hsub ?_
            intro r hr2
            apply hids
            rw [merge_incr_new_some_skip hdr idx E1 line rest hG hlen hfind
              (Or.inr (hc E1))]
            exact hr2
          case pos =>
            by_cases hE1 : pyStrip ((parseCsvLine line).getD idx "") ∈ E1
            case pos =>
              have hE2 : pyStrip ((parseCsvLine line).getD idx "") ∈ E2 :=
                hsub _ hE1
              rw [merge_incr_new_some_skip hdr idx E2 line rest hG hlen hfind
                (Or.inr (fun hcon => hcon.1 hE2))]
              refine ih (some hdr) E1 E2 hdr idx hh2 hfind (Or.inr rfl)
                hsub ?_
              intro r hr2
              apply hids
              rw [merge_incr_new_some_skip hdr idx E1 line rest hG hlen hfind
                (Or.inr (fun hcon => hcon.1 hE1))]
              exact hr2
            case neg =>
              have hrun1 := merge_incr_new_some_append hdr idx E1 line rest
                hG hlen hfind hlt ⟨hE1, hacc⟩
              have hsrx : pyStrip ((parseCsvLine line).getD idx "") ∈ E2 := by
                have := hids (parseCsvLine line) (by
                  rw [hrun1]
                  exact List.mem_cons_self _ _)
                exact this
              rw [merge_incr_new_some_skip hdr idx E2 line rest hG hlen hfind
                (Or.inr (fun hcon => hcon.1 hsrx))]
              refine ih (some hdr)
                (pyStrip ((parseCsvLine line).getD idx "") :: E1) E2 hdr idx
                hh2 hfind (Or.inr rfl) ?_ ?_
              · intro e he
                rcases List.mem_cons.mp he with rfl | he2
                · exact hsrx
                · exact hsub e he2
              · intro r hr2
                apply hids
                rw [hrun1]
                exact List.mem_cons_of_mem _ hr2

/-- `merge_write_back` with nothing to write. -/
theorem merge_write_back_nil (main : List Row) (hdr : Option Row) :
    merge_write_back main hdr [] = (main, 0) := by
  unfold merge_write_back
  rw [if_pos rfl]

/-- `merge_write_back` on a fresh corpus writes the header then the rows. -/
theorem merge_write_back_fresh (hdr : Row) (s : List Row) (hs : s ≠ []) :
    merge_write_back [] (some hdr) s = (hdr :: s, s.length) := by
  unfold merge_write_back
  rw [if_neg hs, if_neg (fun hc => hc rfl)]
  rfl

/-- The dedup load over a large-enough corpus with a located identifier
column. -/
theorem load_existing_cons (hdr : Row) (rows : List Row) (idx : Nat)
    (hsize : 100 < fileSizeBytes (hdr :: rows))
    (hfind : hdr.findIdx? (fun f => f = "Experiment") = some idx) :
    load_existing_srx_ids (hdr :: rows)
      = rows.filterMap (fun row =>
          if idx < row.length then
            let srx := pyStrip (row.getD idx "")
            if isAccessionId srx then some srx else none
          else none) := by
  unfold load_existing_srx_ids
  rw [if_pos hsize]
  dsimp only
  rw [hfind]

/-- Each stored row with a valid accession at the identifier column lands in
the rebuilt dedup set. -/
theorem load_existing_mem (hdr : Row) (rows : List Row) (idx : Nat)
    (hsize : 100 < fileSizeBytes (hdr :: rows))
    (hfind : hdr.findIdx? (fun f => f = "Experiment") = some idx)
    (r : Row) (hr : r ∈ rows) (hlen : idx < r.length)
    (hacc : isAccessionId (pyStrip (r.getD idx "")) = true) :
    pyStrip (r.getD idx "") ∈ load_existing_srx_ids (hdr :: rows) := by
  rw [load_existing_cons hdr rows idx hsize hfind]
  refine List.mem_filterMap.mpr ⟨r, hr, ?_⟩
  rw [if_pos hlen]
  dsimp only
  rw [if_pos hacc]

/-- The dedup load from an empty corpus is empty. -/
theorem load_existing_nil : load_existing_srx_ids [] = [] := by
  unfold load_existing_srx_ids
  rw [if_neg (by simp [fileSizeBytes])]

/-- Shape of a final-mode merge call. -/
theorem incremental_merge_final_eq (temp : String) (main : List Row)
    (skip : Nat) (hg : ¬ temp.data.length ≤ skip) :
    incremental_merge_from_temp temp main skip true
      = (match clean_xml_lines
            ((splitChar '\n' (temp.data.drop skip)).map String.mk)
            false with
        | [] => (main, 0)
        | hline :: rest =>
          match (parseCsvLine hline).findIdx? (fun f => f = "Experiment") with
          | none => (main, 0)
          | some srxIdx =>
            merge_write_back main (some (parseCsvLine hline))
              (merge_final_new srxIdx
                ((parseCsvLine hline).findIdx?
                  (fun f => f = "LibraryStrategy"))
                (load_existing_srx_ids main) (rest.map parseCsvLine))) := by
  unfold incremental_merge_from_temp
  rw [if_neg hg, if_pos rfl]
  dsimp only
  cases clean_xml_lines
      ((splitChar '\n' (temp.data.drop skip)).map String.mk)
      false with
  | nil => rfl
  | cons hline rest =>
    dsimp only
    cases (parseCsvLine hline).findIdx? (fun f => f = "Experiment") with
    | none => rfl
    | some srxIdx =>
      dsimp only
      rw [merge_final_fold_samples]
      rw [List.nil_append]

/-- Shape of an incremental-mode merge call. -/
theorem incremental_merge_incr_eq (temp : String) (main : List Row)
    (skip : Nat) (hg : ¬ temp.data.length ≤ skip) :
    incremental_merge_from_temp temp main skip false
      = merge_write_back main
          (merge_incr_hdr none
            (((splitChar '\n' (temp.data.drop skip)).map
              String.mk).take 1000))
          (merge_incr_new none (load_existing_srx_ids main)
            (((splitChar '\n' (temp.data.drop skip)).map
              String.mk).take 1000)) := by
  unfold incremental_merge_from_temp
  rw [if_neg hg, if_neg (by simp)]
  dsimp only
  rw [merge_incr_fold_samples, merge_incr_fold_header, List.nil_append]

/-- C2 counterexample: a sixteen-byte scratch file merged twice (final mode)
into an initially empty corpus: the corpus after the first merge is 18 bytes,
below the 100-byte dedup-load threshold, so the second merge rebuilds an
empty dedup set and appends the same row again — the row count grows from 2
to 3 and the second call reports one new sample instead of zero. -/
theorem C2_counterexample :
    (incremental_merge_from_temp "Experiment\nSRX1\n" [] 0 true).1
      = [["Experiment"], ["SRX1"]] ∧
    fileSizeBytes [["Experiment"], ["SRX1"]] = 18 ∧
    (incremental_merge_from_temp "Experiment\nSRX1\n"
        [["Experiment"], ["SRX1"]] 0 true).1.length = 3 ∧
    (incremental_merge_from_temp "Experiment\nSRX1\n"
        [["Experiment"], ["SRX1"]] 0 true).2 = 1 ∧
    (3 : Nat) ≠ 2 := by
  decide

/-- C2 amended: starting from an empty corpus file, merging the same scratch
state twice (either mode, same seek offset) appends nothing the second time —
provided the corpus produced by the first merge exceeds the 100-byte
threshold below which the code skips rebuilding the dedup set.  (The dedup
set itself is rebuilt from the corpus argument on every invocation; for
corpora of at most 100 bytes it is left empty and duplicates are appended.) -/
theorem C2_merge_idempotent (temp : String) (skip : Nat) (fm : Bool)
    (h : 100 < fileSizeBytes (incremental_merge_from_temp temp [] skip fm).1) :
    incremental_merge_from_temp temp
        (incremental_merge_from_temp temp [] skip fm).1 skip fm
      = ((incremental_merge_from_temp temp [] skip fm).1, 0) := by
  by_cases hg : temp.data.length ≤ skip
  · exfalso
    have h0 : incremental_merge_from_temp temp [] skip fm = ([], 0) := by
      unfold incremental_merge_from_temp
      rw [if_pos hg]
    rw [h0] at h
    simp [fileSizeBytes] at h
  · cases fm with
    | true =>
      have h1 := incremental_merge_final_eq temp [] skip hg
      cases hclean : (clean_xml_lines ((splitChar '\n' (temp.data.drop skip)).map String.mk) false) with
      | nil =>
        exfalso
        rw [hclean] at h1
        dsimp only at h1
        rw [h1] at h
        simp [fileSizeBytes] at h
      | cons hline rest =>
        rw [hclean] at h1
        dsimp only at h1
        cases hfind : (parseCsvLine hline).findIdx?
            (fun f => f = "Experiment") with
        | none =>
          exfalso
          rw [hfind] at h1
          dsimp only at h1
          rw [h1] at h
          simp [fileSizeBytes] at h
        | some srxIdx =>
          rw [hfind] at h1
          dsimp only at h1
          by_cases hs : merge_final_new srxIdx
              ((parseCsvLine hline).findIdx? (fun f => f = "LibraryStrategy"))
              (load_existing_srx_ids []) (rest.map parseCsvLine) = []
          · exfalso
            rw [hs, merge_write_back_nil] at h1
            rw [h1] at h
            simp [fileSizeBytes] at h
          · have h1' : incremental_merge_from_temp temp [] skip true
                = (parseCsvLine hline :: merge_final_new srxIdx
                    ((parseCsvLine hline).findIdx?
                      (fun f => f = "LibraryStrategy"))
                    (load_existing_srx_ids []) (rest.map parseCsvLine),
                  (merge_final_new srxIdx
                    ((parseCsvLine hline).findIdx?
                      (fun f => f = "LibraryStrategy"))
                    (load_existing_srx_ids [])
                    (rest.map parseCsvLine)).length) := by
              rw [h1, merge_write_back_fresh _ _ hs]
            rw [h1'] at h ⊢
            dsimp only at h ⊢
            rw [incremental_merge_final_eq temp _ skip hg, hclean]
            dsimp only
            rw [hfind]
            dsimp only
            have hnoop : merge_final_new srxIdx
                ((parseCsvLine hline).findIdx?
                  (fun f => f = "LibraryStrategy"))
                (load_existing_srx_ids (parseCsvLine hline ::
                  merge_final_new srxIdx
                    ((parseCsvLine hline).findIdx?
                      (fun f => f = "LibraryStrategy"))
                    (load_existing_srx_ids []) (rest.map parseCsvLine)))
                (rest.map parseCsvLine) = [] := by
              refine merge_final_new_noop srxIdx _ (rest.map parseCsvLine)
                (load_existing_srx_ids []) _ ?_ ?_
              · intro e he
                rw [load_existing_nil] at he
                exact absurd he (List.not_mem_nil e)
              · intro r hr
                have hc := merge_final_new_conds srxIdx
                  ((parseCsvLine hline).findIdx?
                    (fun f => f = "LibraryStrategy"))
                  (rest.map parseCsvLine) (load_existing_srx_ids []) r hr
                exact load_existing_mem (parseCsvLine hline) _ srxIdx h hfind
                  r hr hc.1 hc.2
            rw [hnoop, merge_write_back_nil]
    | false =>
      have h1 := incremental_merge_incr_eq temp [] skip hg
      cases hhdr : merge_incr_hdr none (((splitChar '\n' (temp.data.drop skip)).map String.mk).take 1000) with
      | none =>
        exfalso
        have hs := merge_incr_new_no_header (((splitChar '\n' (temp.data.drop skip)).map String.mk).take 1000)
          (load_existing_srx_ids []) hhdr
        rw [hhdr, hs, merge_write_back_nil] at h1
        rw [h1] at h
        simp [fileSizeBytes] at h
      | some hdr =>
        cases hfind : hdr.findIdx? (fun f => f = "Experiment") with
        | none =>
          exfalso
          have hs := merge_incr_new_noidx_all (((splitChar '\n' (temp.data.drop skip)).map String.mk).take 1000) none
            (load_existing_srx_ids []) hdr hhdr hfind (Or.inl rfl)
          rw [hhdr, hs, merge_write_back_nil] at h1
          rw [h1] at h
          simp [fileSizeBytes] at h
        | some idx =>
          by_cases hs : merge_incr_new none (load_existing_srx_ids [])
              (((splitChar '\n' (temp.data.drop skip)).map String.mk).take 1000) = []
          · exfalso
            rw [hhdr, hs, merge_write_back_nil] at h1
            rw [h1] at h
            simp [fileSizeBytes] at h
          · have h1' : incremental_merge_from_temp temp [] skip false
                = (hdr :: merge_incr_new none (load_existing_srx_ids [])
                    (((splitChar '\n' (temp.data.drop skip)).map String.mk).take 1000),
                  (merge_incr_new none (load_existing_srx_ids [])
                    (((splitChar '\n' (temp.data.drop skip)).map String.mk).take 1000)).length) := by
              rw [h1, hhdr, merge_write_back_fresh _ _ hs]
            rw [h1'] at h ⊢
            dsimp only at h ⊢
            rw [incremental_merge_incr_eq temp _ skip hg, hhdr]
            have hnoop : merge_incr_new none
                (load_existing_srx_ids (hdr :: merge_incr_new none
                  (load_existing_srx_ids []) (((splitChar '\n' (temp.data.drop skip)).map String.mk).take 1000)))
                (((splitChar '\n' (temp.data.drop skip)).map String.mk).take 1000) = [] := by
              refine merge_incr_new_noop (((splitChar '\n' (temp.data.drop skip)).map String.mk).take 1000) none
                (load_existing_srx_ids []) _ hdr idx hhdr hfind (Or.inl rfl)
                ?_ ?_
              · intro e he
                rw [load_existing_nil] at he
                exact absurd he (List.not_mem_nil e)
              · intro r hr
                have hc := merge_incr_new_conds (((splitChar '\n' (temp.data.drop skip)).map String.mk).take 1000) none
                  (load_existing_srx_ids []) hdr idx hhdr hfind (Or.inl rfl)
                  r hr
                exact load_existing_mem hdr _ idx h hfind r hr hc.1 hc.2
            rw [hnoop, merge_write_back_nil]

/-- C2 witness: a five-row scratch file whose first merge yields a 128-byte
corpus; the second merge over the same scratch state appends nothing. -/
theorem C2_merge_idempotent_witness :
    100 < fileSizeBytes (incremental_merge_from_temp
      "Experiment,LibraryStrategy\nSRX0000001,RNA-Seq\nSRX0000002,ChIP-Seq\nSRX0000003,ATAC-seq\nSRX0000004,RNA-Seq\nSRX0000005,ChIP-Seq\n"
      [] 0 true).1 ∧
    incremental_merge_from_temp
      "Experiment,LibraryStrategy\nSRX0000001,RNA-Seq\nSRX0000002,ChIP-Seq\nSRX0000003,ATAC-seq\nSRX0000004,RNA-Seq\nSRX0000005,ChIP-Seq\n"
      (incremental_merge_from_temp
        "Experiment,LibraryStrategy\nSRX0000001,RNA-Seq\nSRX0000002,ChIP-Seq\nSRX0000003,ATAC-seq\nSRX0000004,RNA-Seq\nSRX0000005,ChIP-Seq\n"
        [] 0 true).1 0 true
      = ((incremental_merge_from_temp
        "Experiment,LibraryStrategy\nSRX0000001,RNA-Seq\nSRX0000002,ChIP-Seq\nSRX0000003,ATAC-seq\nSRX0000004,RNA-Seq\nSRX0000005,ChIP-Seq\n"
        [] 0 true).1, 0) :=
  ⟨by decide,
    C2_merge_idempotent
      "Experiment,LibraryStrategy\nSRX0000001,RNA-Seq\nSRX0000002,ChIP-Seq\nSRX0000003,ATAC-seq\nSRX0000004,RNA-Seq\nSRX0000005,ChIP-Seq\n"
      0 true (by decide)⟩

end SRALLM
